import Mathlib

/-!
Verification of the Cloud-Readers RCP serialization subsystem.

This file is a shallow embedding of the repository's export/package
serialization core, translated from:

* src/cloud_readers/protos/rcp_2025_pb2.py  (hand-rolled protobuf-subset codec)
* src/cloud_readers/serialization/rcp.py    (package writer)
* src/cloud_readers/serialization/zstd_codec.py (decompression driver loop)
* src/cloud_readers/serialization.py        (simulation JSON loader)

Modelling conventions:

* Python byte strings are `List Nat` (each element is one byte).
* Python str values that flow through the binary codec are modelled by their
  UTF-8 byte sequences (`List Nat`), since the codec only ever sees
  `s.encode()` / `raw.decode()`, which are mutually inverse.
* float32 / float64 column and scalar values are modelled by their IEEE-754
  bit patterns (`Nat` below `2^32` resp. `2^64`); the codec moves these
  patterns to and from little-endian bytes verbatim, which is exactly what
  `struct.pack` / `struct.unpack` do for values already representable at the
  target width (the spec declares channel columns to be float32 and dpi to
  be float64).
* The position-based Python decode loops are modelled suffix-style: a decoder
  consumes a prefix of the byte list and returns the unconsumed tail, which
  is equivalent to advancing an index and structurally terminating.
* Fallible Python code (raise) is modelled with `Except`.
-/

/-- A Python byte string: a list of byte values. -/
abbrev Bytes := List Nat

deriving instance DecidableEq for Except

/-- Errors raised by the rcp_2025_pb2 codec (`ValueError` / `struct.error`
messages distinguished by their source). -/
inductive PbError where
  /-- ValueError raised by `_decode_varint` when the buffer ends before a
  terminating byte. -/
  | truncatedVarint
  /-- struct.error raised by `_decode_float` / `_decode_double` when fewer
  than 4 resp. 8 bytes remain. -/
  | structUnderrun
  /-- ValueError raised by the message parse loops on an unrecognized
  field-number / wire-type combination. -/
  | unexpectedField (n : Nat)
  /-- ValueError raised by `Manifest._parse_attribute_entry` on an
  unrecognized map-entry field. -/
  | unexpectedMapEntryField
deriving DecidableEq, Repr

/-- From `_encode_varint` (rcp_2025_pb2.py): little-endian base-128 groups,
high bit set on every byte except the last. -/
def encodeVarint (value : Nat) : List Nat :=
  let toWrite := value &&& 127
  if value >>> 7 = 0 then [toWrite]
  else (toWrite ||| 128) :: encodeVarint (value >>> 7)
termination_by value
decreasing_by
  have h2 : value >>> 7 = value / 128 := by
    simpa using Nat.shiftRight_eq_div_pow value 7
  rw [h2] at *
  omega

/-- From `_decode_varint` (rcp_2025_pb2.py), suffix-style: the loop state is
the remaining buffer plus the `shift` and `result` accumulators. -/
def decodeVarintCore : List Nat → Nat → Nat → Except PbError (Nat × List Nat)
  | [], _, _ => .error .truncatedVarint
  | b :: rest, shift, acc =>
    let acc2 := acc ||| ((b &&& 127) <<< shift)
    if b &&& 128 = 0 then .ok (acc2, rest)
    else decodeVarintCore rest (shift + 7) acc2

/-- `_decode_varint(data, pos)` restricted to the unread suffix. -/
def decodeVarint (data : List Nat) : Except PbError (Nat × List Nat) :=
  decodeVarintCore data 0 0

/-- Position-style `_decode_varint(data, pos) -> (value, new_pos)`: the new
position advances past exactly the consumed bytes. -/
def decodeVarintAt (data : List Nat) (pos : Nat) : Except PbError (Nat × Nat) :=
  match decodeVarintCore (data.drop pos) 0 0 with
  | .error e => .error e
  | .ok (v, rest) => .ok (v, data.length - rest.length)

/-- From `_encode_tag` (rcp_2025_pb2.py). -/
def encodeTag (fieldNumber wireType : Nat) : List Nat :=
  encodeVarint ((fieldNumber <<< 3) ||| wireType)

/-- From `_encode_length_delimited` (rcp_2025_pb2.py). -/
def encodeLengthDelimited (payload : List Nat) : List Nat :=
  encodeVarint payload.length ++ payload

/-- From `_decode_length_delimited` (rcp_2025_pb2.py), suffix-style. Python
slicing `data[pos:end]` clamps at the end of the buffer, which is `take` on
the remaining suffix; the returned position is `pos + length` even when that
lies past the end of the buffer, which is `drop length` on the suffix. -/
def decodeLengthDelimited (data : List Nat) : Except PbError (List Nat × List Nat) :=
  match decodeVarint data with
  | .error e => .error e
  | .ok (length, rest) => .ok (rest.take length, rest.drop length)

/-- Position-style `_decode_length_delimited(data, pos) -> (payload, end)`
with `end = pos + length`, the payload being the (clamped) slice
`data[pos:end]`. -/
def decodeLengthDelimitedAt (data : List Nat) (pos : Nat) :
    Except PbError (List Nat × Nat) :=
  match decodeVarintAt data pos with
  | .error e => .error e
  | .ok (length, pos2) => .ok (((data.drop pos2).take length), pos2 + length)

/-- From `_encode_float` (rcp_2025_pb2.py): `struct.pack("<f", value)`, the
four little-endian bytes of the float32 bit pattern. -/
def encodeFloat32 (w : Nat) : List Nat :=
  [w % 256, w / 256 % 256, w / 65536 % 256, w / 16777216 % 256]

/-- From `_decode_float` (rcp_2025_pb2.py): `struct.unpack` demands exactly
four bytes and raises struct.error otherwise. -/
def decodeFloat32 : List Nat → Except PbError (Nat × List Nat)
  | b0 :: b1 :: b2 :: b3 :: rest =>
    .ok (b0 + 256 * b1 + 65536 * b2 + 16777216 * b3, rest)
  | _ => .error .structUnderrun

/-- From `_encode_double` (rcp_2025_pb2.py): `struct.pack("<d", value)`, the
eight little-endian bytes of the float64 bit pattern. -/
def encodeFloat64 (w : Nat) : List Nat :=
  [w % 256, w / 256 % 256, w / 65536 % 256, w / 16777216 % 256,
   w / 4294967296 % 256, w / 1099511627776 % 256,
   w / 281474976710656 % 256, w / 72057594037927936 % 256]

/-- From `_decode_double` (rcp_2025_pb2.py). -/
def decodeFloat64 : List Nat → Except PbError (Nat × List Nat)
  | b0 :: b1 :: b2 :: b3 :: b4 :: b5 :: b6 :: b7 :: rest =>
    .ok (b0 + 256 * b1 + 65536 * b2 + 16777216 * b3 + 4294967296 * b4 +
         1099511627776 * b5 + 281474976710656 * b6 + 72057594037927936 * b7,
         rest)
  | _ => .error .structUnderrun

/-- Fuel-indexed model of `_encode_varint` over Python (arbitrary-precision,
possibly negative) integers: `value & 0x7F` is `Int.emod value 128` and
`value >>= 7` is arithmetic shift, i.e. flooring division by 128. `none`
means the loop has not finished within the given fuel; a negative input
keeps a strictly negative value forever, so no fuel suffices. -/
def encodeVarintIntFuel : Nat → Int → Option (List Nat)
  | 0, _ => none
  | fuel + 1, value =>
    let toWrite := (value.emod 128).toNat
    let value2 := value.fdiv 128
    if value2 = 0 then some [toWrite]
    else (encodeVarintIntFuel fuel value2).map fun tail => (toWrite ||| 128) :: tail

/-!
The message parse loops below terminate because every loop iteration consumes
at least the one byte of the field tag. To make that available to the
termination checker, the three value decoders are restated with the
consumed-at-least-one-byte bound carried in the return type; each is the same
translation of its Python source as the plain version above, plus the bound.
-/

/-- `decodeVarintCore` with the strict-consumption bound in the type. -/
def decodeVarintS : (data : List Nat) → Nat → Nat →
    Except PbError (Nat × {rest : List Nat // rest.length < data.length})
  | [], _, _ => .error .truncatedVarint
  | b :: rest, shift, acc =>
    let acc2 := acc ||| ((b &&& 127) <<< shift)
    if b &&& 128 = 0 then .ok (acc2, ⟨rest, by simp⟩)
    else
      match decodeVarintS rest (shift + 7) acc2 with
      | .error e => .error e
      | .ok (v, ⟨r, hr⟩) => .ok (v, ⟨r, by simp; omega⟩)

/-- `_decode_length_delimited`, suffix-style, with the strict-consumption
bound in the type (the length varint itself consumes at least one byte). -/
def decodeLengthDelimitedS (data : List Nat) :
    Except PbError (List Nat × {rest : List Nat // rest.length < data.length}) :=
  match decodeVarintS data 0 0 with
  | .error e => .error e
  | .ok (length, ⟨r, hr⟩) =>
    .ok (r.take length, ⟨r.drop length, by simp; omega⟩)

/-- `_decode_float`, with the strict-consumption bound in the type. -/
def decodeFloat32S (data : List Nat) :
    Except PbError (Nat × {rest : List Nat // rest.length < data.length}) :=
  match data with
  | b0 :: b1 :: b2 :: b3 :: rest =>
    .ok (b0 + 256 * b1 + 65536 * b2 + 16777216 * b3, ⟨rest, by simp; omega⟩)
  | [] | [_] | [_, _] | [_, _, _] => .error .structUnderrun

/-- `_decode_double`, with the strict-consumption bound in the type. -/
def decodeFloat64S (data : List Nat) :
    Except PbError (Nat × {rest : List Nat // rest.length < data.length}) :=
  match data with
  | b0 :: b1 :: b2 :: b3 :: b4 :: b5 :: b6 :: b7 :: rest =>
    .ok (b0 + 256 * b1 + 65536 * b2 + 16777216 * b3 + 4294967296 * b4 +
         1099511627776 * b5 + 281474976710656 * b6 + 72057594037927936 * b7,
         ⟨rest, by simp; omega⟩)
  | [] | [_] | [_, _] | [_, _, _] | [_, _, _, _] | [_, _, _, _, _]
  | [_, _, _, _, _, _] | [_, _, _, _, _, _, _] => .error .structUnderrun

/-- Truthiness of a Python float given as an IEEE-754 float64 bit pattern:
falsy exactly for positive and negative zero (patterns 0 and 2^63). This
models the `if self.dpi:` presence test in `Manifest.SerializeToString`. -/
def float64Truthy (w : Nat) : Bool :=
  !(w == 0 || w == 9223372036854775808)

/-- The `Checksum` message (rcp_2025_pb2.py). Its binary codec is not
exercised by the package writer (checksums travel through JSON and the text
manifest), so only the record is modelled. -/
structure Checksum where
  path : String := ""
  sha256 : String := ""
deriving DecidableEq, Repr

/-- The `Manifest` message (rcp_2025_pb2.py). String fields are UTF-8 byte
sequences; `dpi` is a float64 bit pattern; `attributes` is the dict as an
insertion-ordered association list with pairwise-distinct keys. -/
structure Manifest where
  version : Bytes := []
  package_id : Bytes := []
  source : Bytes := []
  device_profile : Bytes := []
  dpi : Nat := 0
  created_at : Bytes := []
  attributes : List (Bytes × Bytes) := []
deriving DecidableEq, Repr

/-- Python dict assignment `d[k] = v` on an insertion-ordered association
list: overwrite in place if the key exists, else append. -/
def updateAssoc : List (Bytes × Bytes) → Bytes → Bytes → List (Bytes × Bytes)
  | [], k, v => [(k, v)]
  | (k0, v0) :: rest, k, v =>
    if k0 = k then (k0, v) :: rest else (k0, v0) :: updateAssoc rest k v

/-- `Manifest.SerializeToString`: optional scalar fields in ascending field
number (empty / falsy values omitted), then one length-delimited field-7
entry per attribute in dict insertion order. -/
def Manifest.SerializeToString (m : Manifest) : List Nat :=
  (if m.version ≠ [] then encodeTag 1 2 ++ encodeLengthDelimited m.version else []) ++
  (if m.package_id ≠ [] then encodeTag 2 2 ++ encodeLengthDelimited m.package_id else []) ++
  (if m.source ≠ [] then encodeTag 3 2 ++ encodeLengthDelimited m.source else []) ++
  (if m.device_profile ≠ [] then encodeTag 4 2 ++ encodeLengthDelimited m.device_profile else []) ++
  (if float64Truthy m.dpi then encodeTag 5 1 ++ encodeFloat64 m.dpi else []) ++
  (if m.created_at ≠ [] then encodeTag 6 2 ++ encodeLengthDelimited m.created_at else []) ++
  (m.attributes.flatMap fun kv =>
    encodeTag 7 2 ++ encodeLengthDelimited
      (encodeTag 1 2 ++ encodeLengthDelimited kv.1 ++
       encodeTag 2 2 ++ encodeLengthDelimited kv.2))

/-- `Manifest._parse_attribute_entry` while-loop: `key` and `value` start
empty and are overwritten by each matching field occurrence. -/
def Manifest.parseAttributeEntryLoop :
    (entry : List Nat) → Bytes → Bytes → Except PbError (Bytes × Bytes)
  | [], key, value => .ok (key, value)
  | b :: bs, key, value =>
    match decodeVarintS (b :: bs) 0 0 with
    | .error e => .error e
    | .ok (tag, ⟨rest1, _h1⟩) =>
      if (tag >>> 3 = 1 ∨ tag >>> 3 = 2) ∧ tag &&& 7 = 2 then
        match decodeLengthDelimitedS rest1 with
        | .error e => .error e
        | .ok (raw, ⟨rest2, _h2⟩) =>
          if tag >>> 3 = 1 then Manifest.parseAttributeEntryLoop rest2 raw value
          else Manifest.parseAttributeEntryLoop rest2 key raw
      else .error .unexpectedMapEntryField
termination_by entry => entry.length
decreasing_by all_goals (simp only [List.length_cons] at *; omega)

/-- Tail of `Manifest._parse_attribute_entry`: `if key:` guards the dict
assignment, so an empty key drops the entry. -/
def Manifest.applyAttributeEntry (m : Manifest) (key value : Bytes) : Manifest :=
  if key ≠ [] then { m with attributes := updateAssoc m.attributes key value } else m

/-- `Manifest.ParseFromString` while-loop over the remaining buffer. -/
def Manifest.parseLoop : (data : List Nat) → Manifest → Except PbError Manifest
  | [], m => .ok m
  | b :: bs, m =>
    match decodeVarintS (b :: bs) 0 0 with
    | .error e => .error e
    | .ok (tag, ⟨rest1, _h1⟩) =>
      if (tag >>> 3 = 1 ∨ tag >>> 3 = 2 ∨ tag >>> 3 = 3 ∨ tag >>> 3 = 4 ∨ tag >>> 3 = 6) ∧
          tag &&& 7 = 2 then
        match decodeLengthDelimitedS rest1 with
        | .error e => .error e
        | .ok (raw, ⟨rest2, _h2⟩) =>
          if tag >>> 3 = 1 then Manifest.parseLoop rest2 { m with version := raw }
          else if tag >>> 3 = 2 then Manifest.parseLoop rest2 { m with package_id := raw }
          else if tag >>> 3 = 3 then Manifest.parseLoop rest2 { m with source := raw }
          else if tag >>> 3 = 4 then Manifest.parseLoop rest2 { m with device_profile := raw }
          else Manifest.parseLoop rest2 { m with created_at := raw }
      else if tag >>> 3 = 5 ∧ tag &&& 7 = 1 then
        match decodeFloat64S rest1 with
        | .error e => .error e
        | .ok (w, ⟨rest2, _h2⟩) => Manifest.parseLoop rest2 { m with dpi := w }
      else if tag >>> 3 = 7 ∧ tag &&& 7 = 2 then
        match decodeLengthDelimitedS rest1 with
        | .error e => .error e
        | .ok (raw, ⟨rest2, _h2⟩) =>
          match Manifest.parseAttributeEntryLoop raw [] [] with
          | .error e => .error e
          | .ok (key, value) =>
            Manifest.parseLoop rest2 (Manifest.applyAttributeEntry m key value)
      else .error (.unexpectedField (tag >>> 3))
termination_by data => data.length
decreasing_by all_goals (simp only [List.length_cons] at *; omega)

/-- `Manifest.ParseFromString`: all fields are reset to their defaults, then
the loop consumes the buffer. -/
def Manifest.ParseFromString (data : List Nat) : Except PbError Manifest :=
  Manifest.parseLoop data {}

/-- The `TouchChannel` message (rcp_2025_pb2.py): five parallel columns,
timestamps as non-negative integers, the four payload columns as float32 bit
patterns. -/
structure TouchChannel where
  t : List Nat := []
  x : List Nat := []
  y : List Nat := []
  pressure : List Nat := []
  size : List Nat := []
deriving DecidableEq, Repr

/-- `TouchChannel.SerializeToString`: one tag + value pair per element, all
of column `t` first, then `x`, `y`, `pressure`, `size`. -/
def TouchChannel.SerializeToString (c : TouchChannel) : List Nat :=
  (c.t.flatMap fun v => encodeTag 1 0 ++ encodeVarint v) ++
  (c.x.flatMap fun v => encodeTag 2 5 ++ encodeFloat32 v) ++
  (c.y.flatMap fun v => encodeTag 3 5 ++ encodeFloat32 v) ++
  (c.pressure.flatMap fun v => encodeTag 4 5 ++ encodeFloat32 v) ++
  (c.size.flatMap fun v => encodeTag 5 5 ++ encodeFloat32 v)

/-- `TouchChannel.ParseFromString` while-loop: each recognized field appends
to its column; anything else raises. There is no column-length check. -/
def TouchChannel.parseLoop : (data : List Nat) → TouchChannel → Except PbError TouchChannel
  | [], c => .ok c
  | b :: bs, c =>
    match decodeVarintS (b :: bs) 0 0 with
    | .error e => .error e
    | .ok (tag, ⟨rest1, _h1⟩) =>
      if tag >>> 3 = 1 ∧ tag &&& 7 = 0 then
        match decodeVarintS rest1 0 0 with
        | .error e => .error e
        | .ok (v, ⟨rest2, _h2⟩) => TouchChannel.parseLoop rest2 { c with t := c.t ++ [v] }
      else if tag >>> 3 = 2 ∧ tag &&& 7 = 5 then
        match decodeFloat32S rest1 with
        | .error e => .error e
        | .ok (v, ⟨rest2, _h2⟩) => TouchChannel.parseLoop rest2 { c with x := c.x ++ [v] }
      else if tag >>> 3 = 3 ∧ tag &&& 7 = 5 then
        match decodeFloat32S rest1 with
        | .error e => .error e
        | .ok (v, ⟨rest2, _h2⟩) => TouchChannel.parseLoop rest2 { c with y := c.y ++ [v] }
      else if tag >>> 3 = 4 ∧ tag &&& 7 = 5 then
        match decodeFloat32S rest1 with
        | .error e => .error e
        | .ok (v, ⟨rest2, _h2⟩) => TouchChannel.parseLoop rest2 { c with pressure := c.pressure ++ [v] }
      else if tag >>> 3 = 5 ∧ tag &&& 7 = 5 then
        match decodeFloat32S rest1 with
        | .error e => .error e
        | .ok (v, ⟨rest2, _h2⟩) => TouchChannel.parseLoop rest2 { c with size := c.size ++ [v] }
      else .error (.unexpectedField (tag >>> 3))
termination_by data => data.length
decreasing_by all_goals (simp only [List.length_cons] at *; omega)

/-- `TouchChannel.ParseFromString`: columns are cleared, then the loop
consumes the buffer. -/
def TouchChannel.ParseFromString (data : List Nat) : Except PbError TouchChannel :=
  TouchChannel.parseLoop data {}

/-- The `AccChannel` message (rcp_2025_pb2.py): four parallel columns. -/
structure AccChannel where
  t : List Nat := []
  x : List Nat := []
  y : List Nat := []
  z : List Nat := []
deriving DecidableEq, Repr

/-- `AccChannel.SerializeToString`. -/
def AccChannel.SerializeToString (c : AccChannel) : List Nat :=
  (c.t.flatMap fun v => encodeTag 1 0 ++ encodeVarint v) ++
  (c.x.flatMap fun v => encodeTag 2 5 ++ encodeFloat32 v) ++
  (c.y.flatMap fun v => encodeTag 3 5 ++ encodeFloat32 v) ++
  (c.z.flatMap fun v => encodeTag 4 5 ++ encodeFloat32 v)

/-- `AccChannel.ParseFromString` while-loop; no column-length check. -/
def AccChannel.parseLoop : (data : List Nat) → AccChannel → Except PbError AccChannel
  | [], c => .ok c
  | b :: bs, c =>
    match decodeVarintS (b :: bs) 0 0 with
    | .error e => .error e
    | .ok (tag, ⟨rest1, _h1⟩) =>
      if tag >>> 3 = 1 ∧ tag &&& 7 = 0 then
        match decodeVarintS rest1 0 0 with
        | .error e => .error e
        | .ok (v, ⟨rest2, _h2⟩) => AccChannel.parseLoop rest2 { c with t := c.t ++ [v] }
      else if tag >>> 3 = 2 ∧ tag &&& 7 = 5 then
        match decodeFloat32S rest1 with
        | .error e => .error e
        | .ok (v, ⟨rest2, _h2⟩) => AccChannel.parseLoop rest2 { c with x := c.x ++ [v] }
      else if tag >>> 3 = 3 ∧ tag &&& 7 = 5 then
        match decodeFloat32S rest1 with
        | .error e => .error e
        | .ok (v, ⟨rest2, _h2⟩) => AccChannel.parseLoop rest2 { c with y := c.y ++ [v] }
      else if tag >>> 3 = 4 ∧ tag &&& 7 = 5 then
        match decodeFloat32S rest1 with
        | .error e => .error e
        | .ok (v, ⟨rest2, _h2⟩) => AccChannel.parseLoop rest2 { c with z := c.z ++ [v] }
      else .error (.unexpectedField (tag >>> 3))
termination_by data => data.length
decreasing_by all_goals (simp only [List.length_cons] at *; omega)

/-- `AccChannel.ParseFromString`. -/
def AccChannel.ParseFromString (data : List Nat) : Except PbError AccChannel :=
  AccChannel.parseLoop data {}

/-- The `GyroChannel` message (rcp_2025_pb2.py): textually identical to
`AccChannel` in the source, modelled as its own structure likewise. -/
structure GyroChannel where
  t : List Nat := []
  x : List Nat := []
  y : List Nat := []
  z : List Nat := []
deriving DecidableEq, Repr

/-- `GyroChannel.SerializeToString`. -/
def GyroChannel.SerializeToString (c : GyroChannel) : List Nat :=
  (c.t.flatMap fun v => encodeTag 1 0 ++ encodeVarint v) ++
  (c.x.flatMap fun v => encodeTag 2 5 ++ encodeFloat32 v) ++
  (c.y.flatMap fun v => encodeTag 3 5 ++ encodeFloat32 v) ++
  (c.z.flatMap fun v => encodeTag 4 5 ++ encodeFloat32 v)

/-- `GyroChannel.ParseFromString` while-loop; no column-length check. -/
def GyroChannel.parseLoop : (data : List Nat) → GyroChannel → Except PbError GyroChannel
  | [], c => .ok c
  | b :: bs, c =>
    match decodeVarintS (b :: bs) 0 0 with
    | .error e => .error e
    | .ok (tag, ⟨rest1, _h1⟩) =>
      if tag >>> 3 = 1 ∧ tag &&& 7 = 0 then
        match decodeVarintS rest1 0 0 with
        | .error e => .error e
        | .ok (v, ⟨rest2, _h2⟩) => GyroChannel.parseLoop rest2 { c with t := c.t ++ [v] }
      else if tag >>> 3 = 2 ∧ tag &&& 7 = 5 then
        match decodeFloat32S rest1 with
        | .error e => .error e
        | .ok (v, ⟨rest2, _h2⟩) => GyroChannel.parseLoop rest2 { c with x := c.x ++ [v] }
      else if tag >>> 3 = 3 ∧ tag &&& 7 = 5 then
        match decodeFloat32S rest1 with
        | .error e => .error e
        | .ok (v, ⟨rest2, _h2⟩) => GyroChannel.parseLoop rest2 { c with y := c.y ++ [v] }
      else if tag >>> 3 = 4 ∧ tag &&& 7 = 5 then
        match decodeFloat32S rest1 with
        | .error e => .error e
        | .ok (v, ⟨rest2, _h2⟩) => GyroChannel.parseLoop rest2 { c with z := c.z ++ [v] }
      else .error (.unexpectedField (tag >>> 3))
termination_by data => data.length
decreasing_by all_goals (simp only [List.length_cons] at *; omega)

/-- `GyroChannel.ParseFromString`. -/
def GyroChannel.ParseFromString (data : List Nat) : Except PbError GyroChannel :=
  GyroChannel.parseLoop data {}

/-- The `Index` message (rcp_2025_pb2.py). Only its record shape is needed by
the package writer (the index travels as JSON); `duration_seconds` is
modelled as an exact rational standing for the Python float (the claims
settled below only exercise its branch structure, not rounding). -/
structure Index where
  touch_samples : Nat := 0
  acc_samples : Nat := 0
  gyro_samples : Nat := 0
  duration_seconds : Rat := 0
  checksums : List Checksum := []
deriving DecidableEq, Repr

/-- Errors raised by serialization/rcp.py: the column-length ValueError from
`_ensure_lengths_match`, filesystem read failures, and propagated codec
errors. -/
inductive RcpError where
  | columnLengthMismatch
  | readFailure
  | pb (e : PbError)
deriving DecidableEq, Repr

/-- File contents: channel files hold raw bytes (`write_bytes`), the JSON
and checksum artifacts hold text (`write_text`). -/
inductive FData where
  | bin : Bytes → FData
  | txt : String → FData
deriving DecidableEq, Repr

/-- The package directory as seen by the writer: the set of created
directories and the files keyed by root-relative path (later writes
shadow earlier ones). The package root itself is the directory named
`"."`. -/
structure FS where
  dirs : List String := []
  files : List (String × FData) := []
deriving DecidableEq, Repr

/-- `Path.mkdir(parents=True, exist_ok=True)`: idempotent creation. -/
def fsMkdir (fs : FS) (p : String) : FS :=
  { fs with dirs := if p ∈ fs.dirs then fs.dirs else p :: fs.dirs }

/-- `write_bytes` / `write_text`: whole-buffer replacement. -/
def fsWrite (fs : FS) (p : String) (d : FData) : FS :=
  { fs with files := (p, d) :: fs.files }

/-- `read_bytes` / `read_text`: the most recent write wins. -/
def fsRead (fs : FS) (p : String) : Option FData :=
  (fs.files.find? fun e => e.1 = p).map (·.2)

/-- The external effects the writer threads through: libzstd compression,
hashlib SHA-256 (as a hex string), and the json.dumps pretty-printers used
by `_message_to_json`. They are parameters of the embedding; the claims
below constrain only how the writer composes them. -/
structure ExtFuns where
  compress : Nat → List Nat → List Nat
  decompress : List Nat → List Nat
  sha256hex : FData → String
  manifestJson : Manifest → String
  indexJson : Index → String

/-- `_ensure_lengths_match` (rcp.py): build the set of column lengths and
raise when it has more than one element. -/
def ensure_lengths_match (values : List (List Nat)) : Except RcpError Unit :=
  let lengths := (values.map List.length).dedup
  if lengths.length > 1 then .error .columnLengthMismatch else .ok ()

/-- `_channel_duration` (rcp.py): 0 for an empty column, the sole timestamp
over 1e6 for a single sample, last minus first over 1e6 otherwise. -/
def channel_duration : List Nat → Rat
  | [] => 0
  | [t0] => (t0 : Rat) / 1000000
  | t0 :: t1 :: rest => (((t1 :: rest).getLast (by simp) : Rat) - (t0 : Rat)) / 1000000

/-- The `isinstance` dispatch argument of `write_channel_pbz`. -/
inductive ChannelMessage where
  | touch : TouchChannel → ChannelMessage
  | acc : AccChannel → ChannelMessage
  | gyro : GyroChannel → ChannelMessage

/-- The column list `write_channel_pbz` validates for each channel kind. -/
def ChannelMessage.columns : ChannelMessage → List (List Nat)
  | .touch c => [c.t, c.x, c.y, c.pressure, c.size]
  | .acc c => [c.t, c.x, c.y, c.z]
  | .gyro c => [c.t, c.x, c.y, c.z]

/-- Serialization dispatch of `write_channel_pbz`. -/
def ChannelMessage.serialize : ChannelMessage → List Nat
  | .touch c => c.SerializeToString
  | .acc c => c.SerializeToString
  | .gyro c => c.SerializeToString

/-- `write_channel_pbz` (rcp.py): validate this channel, serialize,
compress, create the parent directory (`channels` for every call the writer
makes), then write the file. -/
def write_channel_pbz (ext : ExtFuns) (channel : ChannelMessage) (path : String)
    (compression_level : Nat) (fs : FS) : Except RcpError FS := do
  ensure_lengths_match channel.columns
  let raw := channel.serialize
  let compressed := ext.compress compression_level raw
  let fs2 := fsMkdir fs "channels"
  .ok (fsWrite fs2 path (.bin compressed))

/-- `read_channel_pbz` (rcp.py): read bytes (FileNotFoundError surfaces as a
read failure), decompress, parse with the requested message class. -/
def read_channel_pbz (ext : ExtFuns) (path : String)
    (parse : List Nat → Except PbError α) (fs : FS) : Except RcpError α :=
  match fsRead fs path with
  | some (.bin compressed) => (parse (ext.decompress compressed)).mapError RcpError.pb
  | _ => .error .readFailure

/-- `build_index` (rcp.py): re-read the three just-written channel files,
derive sample counts and the duration, and return an index whose checksum
list is still empty (the caller populates it afterwards). -/
def build_index (ext : ExtFuns) (fs : FS) : Except RcpError Index := do
  let touch ← read_channel_pbz ext "channels/touch.pbz" TouchChannel.ParseFromString fs
  let acc ← read_channel_pbz ext "channels/acc.pbz" AccChannel.ParseFromString fs
  let gyro ← read_channel_pbz ext "channels/gyro.pbz" GyroChannel.ParseFromString fs
  let durations := [channel_duration touch.t, channel_duration acc.t, channel_duration gyro.t]
  let duration := durations.max?.getD 0
  .ok { touch_samples := touch.t.length
        acc_samples := acc.t.length
        gyro_samples := gyro.t.length
        duration_seconds := duration
        checksums := [] }

/-- `compute_checksums` (rcp.py): hash each artifact as it currently exists
on disk, in the order given. -/
def compute_checksums (ext : ExtFuns) : List String → FS → Except RcpError (List Checksum)
  | [], _ => .ok []
  | p :: ps, fs =>
    match fsRead fs p with
    | none => .error .readFailure
    | some d => do
      let rest ← compute_checksums ext ps fs
      .ok ({ path := p, sha256 := ext.sha256hex d } :: rest)

/-- Python `"\n".join(lines)`. -/
def joinNewline : List String → String
  | [] => ""
  | [l] => l
  | l :: ls => l ++ "\n" ++ joinNewline ls

/-- `write_checksum_file` (rcp.py): one `"<sha256>  <path>"` line per entry,
joined with newlines, plus a trailing newline. -/
def write_checksum_file_content (entries : List Checksum) : String :=
  joinNewline (entries.map fun entry => entry.sha256 ++ "  " ++ entry.path) ++ "\n"

/-- The five artifact paths of `package_paths` (rcp.py), root-relative. -/
def checksumInputs4 : List String :=
  ["manifest.json", "channels/touch.pbz", "channels/acc.pbz", "channels/gyro.pbz"]

/-- `write_package` (rcp.py), step for step. It returns the outcome together
with the package directory state reached, so that claims about failures can
inspect what had already been written. -/
def write_package (ext : ExtFuns) (manifest : Manifest) (touch : TouchChannel)
    (acc : AccChannel) (gyro : GyroChannel) (compression_level : Nat) :
    Except RcpError Index × FS :=
  let fs0 := fsMkdir {} "."
  match write_channel_pbz ext (.touch touch) "channels/touch.pbz" compression_level fs0 with
  | .error e => (.error e, fs0)
  | .ok fs1 =>
    match write_channel_pbz ext (.acc acc) "channels/acc.pbz" compression_level fs1 with
    | .error e => (.error e, fs1)
    | .ok fs2 =>
      match write_channel_pbz ext (.gyro gyro) "channels/gyro.pbz" compression_level fs2 with
      | .error e => (.error e, fs2)
      | .ok fs3 =>
        let fs4 := fsWrite fs3 "manifest.json" (.txt (ext.manifestJson manifest))
        match build_index ext fs4 with
        | .error e => (.error e, fs4)
        | .ok index0 =>
          match compute_checksums ext checksumInputs4 fs4 with
          | .error e => (.error e, fs4)
          | .ok cks =>
            let index := { index0 with checksums := index0.checksums ++ cks }
            let fs5 := fsWrite fs4 "index.json" (.txt (ext.indexJson index))
            match compute_checksums ext (checksumInputs4 ++ ["index.json"]) fs5 with
            | .error e => (.error e, fs5)
            | .ok entries =>
              let fs6 := fsWrite fs5 "checksums.txt" (.txt (write_checksum_file_content entries))
              (.ok index, fs6)

/-- Result of `ZSTD_getFrameContentSize` (zstd_codec.py): an error sentinel,
the unknown-size sentinel, or an embedded content size. -/
inductive ContentSizeInfo where
  | sizeError
  | sizeUnknown
  | sizeKnown (n : Nat)
deriving DecidableEq, Repr

/-- Failures of `decompress` (zstd_codec.py): the invalid-frame RuntimeError,
and the RuntimeError raised once doubling the output buffer would exceed the
1 GiB ceiling (the safety failure the spec names OutputTooLarge). -/
inductive ZstdError where
  | invalidFrame
  | outputTooLarge
deriving DecidableEq, Repr

/-- The `while True` retry loop of `decompress` (zstd_codec.py), fuel-indexed
because with a zero buffer size the Python loop never terminates (`0 * 2` is
still 0); `none` means the loop has not finished within the given fuel. The
underlying `ZSTD_decompress` call is abstracted as `z capacity`, returning
the decompressed bytes or `none` for an error result. -/
def zstd_decompress_loop (z : Nat → Option (List Nat)) :
    Nat → Nat → Option (Except ZstdError (List Nat))
  | 0, _ => none
  | fuel + 1, content_size =>
    match z content_size with
    | some out => some (.ok out)
    | none =>
      let grown := content_size * 2
      if grown > 1073741824 then some (.error .outputTooLarge)
      else zstd_decompress_loop z fuel grown

/-- `decompress` (zstd_codec.py): dispatch on the frame content size, then
run the retry loop; an unknown content size starts the buffer at
`max(src_size * 4, 1024)`. -/
def zstd_decompress (z : Nat → Option (List Nat)) (info : ContentSizeInfo)
    (src_size fuel : Nat) : Option (Except ZstdError (List Nat)) :=
  match info with
  | .sizeError => some (.error .invalidFrame)
  | .sizeKnown n => zstd_decompress_loop z fuel n
  | .sizeUnknown => zstd_decompress_loop z fuel (max (src_size * 4) 1024)

/-- `load_simulation` (serialization.py, lines 184-194) builds the loaded
arrays directly from the parsed JSON values: it applies no reordering and no
bumping to the timestamp column. This definition records that fact: the
timestamp column comes back exactly as stored. -/
def load_simulation_timestamps (t : List Int) : List Int := t

/-- Modelled from the spec: the loader-side monotonic-timestamp repair that
`load_simulation` is specified (and tested) to perform but does not —
stable-sort the parallel columns by timestamp, then walk forward and bump
any timestamp at most its predecessor up to predecessor + 1. Rows pair a
timestamp with the index of the sample's other column values. -/
def repair_bump (prev : Int) : List (Int × Nat) → List (Int × Nat)
  | [] => []
  | (t, v) :: rest =>
    let t2 := if t ≤ prev then prev + 1 else t
    (t2, v) :: repair_bump t2 rest

/-- Modelled from the spec: stable sort by timestamp, then the forward bump
walk (the first row has no predecessor and is never bumped). -/
def repair_timestamps (rows : List (Int × Nat)) : List (Int × Nat) :=
  match List.insertionSort (fun a b => a.1 ≤ b.1) rows with
  | [] => []
  | r :: rs => r :: repair_bump r.1 rs

/-- Lowercase hexadecimal digits, the alphabet of `hashlib...hexdigest()`. -/
def isHexChar (c : Char) : Bool :=
  c ∈ "0123456789abcdef".toList

/-- A 64-character lowercase-hex string, the shape of every SHA-256 hex
digest. -/
def IsSha256Hex (s : String) : Prop :=
  s.length = 64 ∧ ∀ c ∈ s.toList, isHexChar c

/-- Validity of a Manifest value for the round-trip claim: the dpi bit
pattern is a float64 that is not negative zero (negative zero is falsy in
Python, so it is skipped on encode and parses back as +0.0), attribute keys
are non-empty (the parser drops empty-key entries), and keys are pairwise
distinct (they come from a dict). -/
def Manifest.valid (m : Manifest) : Prop :=
  m.dpi < 18446744073709551616 ∧ m.dpi ≠ 9223372036854775808 ∧
  (∀ kv ∈ m.attributes, kv.1 ≠ []) ∧ (m.attributes.map Prod.fst).Nodup

/-- Validity of a TouchChannel value: the four payload columns hold float32
bit patterns. -/
def TouchChannel.valid (c : TouchChannel) : Prop :=
  (∀ v ∈ c.x, v < 4294967296) ∧ (∀ v ∈ c.y, v < 4294967296) ∧
  (∀ v ∈ c.pressure, v < 4294967296) ∧ (∀ v ∈ c.size, v < 4294967296)

/-- Validity of an AccChannel value. -/
def AccChannel.valid (c : AccChannel) : Prop :=
  (∀ v ∈ c.x, v < 4294967296) ∧ (∀ v ∈ c.y, v < 4294967296) ∧
  (∀ v ∈ c.z, v < 4294967296)

/-- Validity of a GyroChannel value. -/
def GyroChannel.valid (c : GyroChannel) : Prop :=
  (∀ v ∈ c.x, v < 4294967296) ∧ (∀ v ∈ c.y, v < 4294967296) ∧
  (∀ v ∈ c.z, v < 4294967296)


/-- The index value a successful `write_package` run returns, expressed in
terms of the three re-parsed channels: sample counts and duration come from
the re-read, the four checksum entries from hashing the just-written
artifacts. -/
def pkgIndex (ext : ExtFuns) (lvl : Nat) (m : Manifest)
    (tc : TouchChannel) (ac : AccChannel) (gc : GyroChannel)
    (pt : TouchChannel) (pa : AccChannel) (pg : GyroChannel) : Index :=
  { touch_samples := pt.t.length
    acc_samples := pa.t.length
    gyro_samples := pg.t.length
    duration_seconds :=
      ([channel_duration pt.t, channel_duration pa.t, channel_duration pg.t].max?).getD 0
    checksums :=
      [{ path := "manifest.json", sha256 := ext.sha256hex (.txt (ext.manifestJson m)) },
       { path := "channels/touch.pbz",
         sha256 := ext.sha256hex (.bin (ext.compress lvl tc.SerializeToString)) },
       { path := "channels/acc.pbz",
         sha256 := ext.sha256hex (.bin (ext.compress lvl ac.SerializeToString)) },
       { path := "channels/gyro.pbz",
         sha256 := ext.sha256hex (.bin (ext.compress lvl gc.SerializeToString)) }] }

/-- The package directory a successful `write_package` run leaves behind
(most recent writes first). -/
def pkgFS (ext : ExtFuns) (lvl : Nat) (m : Manifest)
    (tc : TouchChannel) (ac : AccChannel) (gc : GyroChannel) (index : Index) : FS :=
  { dirs := ["channels", "."]
    files :=
      [("checksums.txt", .txt (write_checksum_file_content
          (index.checksums ++
            [{ path := "index.json", sha256 := ext.sha256hex (.txt (ext.indexJson index)) }]))),
       ("index.json", .txt (ext.indexJson index)),
       ("manifest.json", .txt (ext.manifestJson m)),
       ("channels/gyro.pbz", .bin (ext.compress lvl gc.SerializeToString)),
       ("channels/acc.pbz", .bin (ext.compress lvl ac.SerializeToString)),
       ("channels/touch.pbz", .bin (ext.compress lvl tc.SerializeToString))] }


/-- A concrete instantiation of the external functions, used to run the
writer on concrete inputs: identity compression, a constant 64-hex digest,
and constant JSON encoders. -/
def extId : ExtFuns :=
  { compress := fun _ b => b
    decompress := fun b => b
    sha256hex := fun _ => String.mk (List.replicate 64 (Char.ofNat 97))
    manifestJson := fun _ => "mj"
    indexJson := fun _ => "ij" }

/-- A concrete single-sample touch channel used as a counterexample input:
one sample at timestamp 2000000 microseconds. -/
def touchSingle : TouchChannel :=
  { t := [2000000], x := [5], y := [6], pressure := [7], size := [8] }

/-! ### Properties of the varint codec -/

/-- Splitting a value into its low seven bits and the rest, reassembled by
the decode loop accumulator. -/
theorem varint_split (n s : Nat) :
    ((n &&& 127) <<< s) ||| ((n >>> 7) <<< (s + 7)) = n <<< s := by
  apply Nat.eq_of_testBit_eq
  intro i
  have h127 : (127 : Nat) = 2 ^ 7 - 1 := by norm_num
  simp only [Nat.testBit_or, Nat.testBit_shiftLeft, Nat.testBit_and,
    Nat.testBit_shiftRight, h127, Nat.testBit_two_pow_sub_one]
  by_cases h1 : s ≤ i
  · by_cases h2 : s + 7 ≤ i
    · have h3 : ¬(i - s < 7) := by omega
      have h4 : 7 + (i - (s + 7)) = i - s := by omega
      simp [h1, h2, h3, h4]
    · have h3 : i - s < 7 := by omega
      simp [h1, h2, h3]
  · have h2 : ¬(s + 7 ≤ i) := by omega
    simp [h1, h2]

/-- The low seven bits are unchanged by setting the continuation bit. -/
theorem or128_and127 (a : Nat) : (a ||| 128) &&& 127 = a &&& 127 := by
  rw [Nat.and_comm, Nat.and_or_distrib_left, Nat.and_comm 127 a]
  have h : (127 : Nat) &&& 128 = 0 := by decide
  rw [h, Nat.or_zero]

/-- Masking twice with 127 is masking once. -/
theorem and127_and127 (a : Nat) : (a &&& 127) &&& 127 = a &&& 127 := by
  rw [Nat.and_assoc, Nat.and_self]

/-- A value with no bits beyond the seventh fails the continuation test. -/
theorem and127_and128 (a : Nat) : (a &&& 127) &&& 128 = 0 := by
  rw [Nat.and_assoc]
  have h : (127 : Nat) &&& 128 = 0 := by decide
  rw [h, Nat.and_zero]

/-- Setting the continuation bit makes the continuation test fire. -/
theorem or128_and128_ne (a : Nat) : (a ||| 128) &&& 128 ≠ 0 := by
  rw [Nat.and_comm, Nat.and_or_distrib_left, Nat.and_comm 128 a]
  have h : (128 : Nat) &&& 128 = 128 := by decide
  rw [h]
  intro h0
  have h1 := congrArg (fun t => Nat.testBit t 7) h0
  have h2 : Nat.testBit 128 7 = true := by decide
  simp [Nat.testBit_or, h2] at h1

/-- A varint encoding is never empty. -/
theorem encodeVarint_length_pos (n : Nat) : 0 < (encodeVarint n).length := by
  rw [encodeVarint]
  split <;> simp

/-- Decoding a varint encoding from any loop state recovers the encoded
value shifted into the accumulator, consuming exactly the encoding. -/
theorem decodeVarintCore_encode (n : Nat) : ∀ (shift acc : Nat) (rest : List Nat),
    decodeVarintCore (encodeVarint n ++ rest) shift acc =
      .ok (acc ||| (n <<< shift), rest) := by
  induction n using Nat.strong_induction_on with
  | _ n ih =>
    intro shift acc rest
    rw [encodeVarint]
    by_cases h : n >>> 7 = 0
    · have hsplit := varint_split n shift
      rw [h, Nat.zero_shiftLeft, Nat.or_zero] at hsplit
      simp [h, decodeVarintCore, and127_and128, and127_and127, hsplit]
    · have hlt : n >>> 7 < n := by
        have hdiv : n >>> 7 = n / 128 := by
          simpa using Nat.shiftRight_eq_div_pow n 7
        have hn0 : n ≠ 0 := fun h0 => h (by simp [h0])
        omega
      have hstep := ih (n >>> 7) hlt (shift + 7) (acc ||| ((n &&& 127) <<< shift)) rest
      simp only [h, ite_false, if_neg, List.cons_append]
      rw [decodeVarintCore]
      simp only [or128_and127, and127_and127]
      rw [if_neg (or128_and128_ne (n &&& 127))]
      rw [hstep, Nat.or_assoc, varint_split]

/-- On success the plain varint decode loop consumed at least one byte. -/
theorem decodeVarintCore_length : ∀ (data : List Nat) (shift acc v : Nat)
    (r : List Nat), decodeVarintCore data shift acc = .ok (v, r) →
    r.length < data.length
  | [], _, _, _, _ => by simp [decodeVarintCore]
  | b :: rest, shift, acc, v, r => by
    rw [decodeVarintCore]
    by_cases h : b &&& 128 = 0
    · rw [if_pos h]
      intro hok
      cases hok
      simp
    · rw [if_neg h]
      intro hok
      have := decodeVarintCore_length rest (shift + 7)
        (acc ||| ((b &&& 127) <<< shift)) v r hok
      simp
      omega

/-- The subtype-carrying decode loop agrees with the plain one. -/
theorem decodeVarintS_ok_of_core : ∀ (data : List Nat) (shift acc v : Nat)
    (r : List Nat) (hlt : r.length < data.length),
    decodeVarintCore data shift acc = .ok (v, r) →
    decodeVarintS data shift acc = .ok (v, ⟨r, hlt⟩)
  | [], _, _, _, _, _ => by simp [decodeVarintCore]
  | b :: rest, shift, acc, v, r, hlt => by
    rw [decodeVarintCore, decodeVarintS]
    by_cases h : b &&& 128 = 0
    · rw [if_pos h, if_pos h]
      intro hok
      cases hok
      rfl
    · rw [if_neg h, if_neg h]
      intro hok
      have hr : r.length < rest.length :=
        decodeVarintCore_length rest (shift + 7) (acc ||| ((b &&& 127) <<< shift)) v r hok
      rw [decodeVarintS_ok_of_core rest (shift + 7) _ v r hr hok]

/-- Round-trip of the varint codec at the decoder entry point, preserving
trailing bytes. -/
theorem decodeVarint_encode (n : Nat) (rest : List Nat) :
    decodeVarint (encodeVarint n ++ rest) = .ok (n, rest) := by
  rw [decodeVarint, decodeVarintCore_encode]
  simp

/-- The subtype decoder on a varint encoding. -/
theorem decodeVarintS_encode (n : Nat) (acc shift : Nat) (rest : List Nat)
    (hlt : rest.length < (encodeVarint n ++ rest).length) :
    decodeVarintS (encodeVarint n ++ rest) shift acc =
      .ok (acc ||| (n <<< shift), ⟨rest, hlt⟩) :=
  decodeVarintS_ok_of_core _ _ _ _ _ hlt (decodeVarintCore_encode n shift acc rest)

/-! ### Properties of the length-delimited and fixed-width codecs -/

/-- Round-trip of the length-delimited codec, preserving trailing bytes. -/
theorem decodeLengthDelimited_encode (p rest : List Nat) :
    decodeLengthDelimited (encodeLengthDelimited p ++ rest) = .ok (p, rest) := by
  rw [decodeLengthDelimited, encodeLengthDelimited, List.append_assoc,
    decodeVarint_encode]
  simp [List.take_left, List.drop_left]

/-- The subtype length-delimited decoder agrees with the plain one. -/
theorem decodeLengthDelimitedS_ok_of_plain (data p r : List Nat)
    (hlt : r.length < data.length) (h : decodeLengthDelimited data = .ok (p, r)) :
    decodeLengthDelimitedS data = .ok (p, ⟨r, hlt⟩) := by
  rw [decodeLengthDelimited, decodeVarint] at h
  rw [decodeLengthDelimitedS]
  cases hc : decodeVarintCore data 0 0 with
  | error e => rw [hc] at h; cases h
  | ok pr =>
    obtain ⟨n, rest0⟩ := pr
    rw [hc] at h
    rw [decodeVarintS_ok_of_core data 0 0 n rest0
      (decodeVarintCore_length data 0 0 n rest0 hc) hc]
    cases h
    rfl

/-- The subtype length-delimited decoder on an encoding. -/
theorem decodeLengthDelimitedS_encode (p rest : List Nat)
    (hlt : rest.length < (encodeLengthDelimited p ++ rest).length) :
    decodeLengthDelimitedS (encodeLengthDelimited p ++ rest) = .ok (p, ⟨rest, hlt⟩) :=
  decodeLengthDelimitedS_ok_of_plain _ p rest hlt (decodeLengthDelimited_encode p rest)

/-- The subtype float32 decoder on an encoding of a float32 bit pattern. -/
theorem decodeFloat32S_encode (w : Nat) (hw : w < 4294967296) (rest : List Nat)
    (hlt : rest.length < (encodeFloat32 w ++ rest).length) :
    decodeFloat32S (encodeFloat32 w ++ rest) = .ok (w, ⟨rest, hlt⟩) := by
  have harith : w % 256 + 256 * (w / 256 % 256) + 65536 * (w / 65536 % 256) +
      16777216 * (w / 16777216 % 256) = w := by omega
  simp only [encodeFloat32, List.cons_append, List.nil_append, decodeFloat32S, harith]

/-- The subtype float64 decoder on an encoding of a float64 bit pattern. -/
theorem decodeFloat64S_encode (w : Nat) (hw : w < 18446744073709551616)
    (rest : List Nat) (hlt : rest.length < (encodeFloat64 w ++ rest).length) :
    decodeFloat64S (encodeFloat64 w ++ rest) = .ok (w, ⟨rest, hlt⟩) := by
  have harith : w % 256 + 256 * (w / 256 % 256) + 65536 * (w / 65536 % 256) +
      16777216 * (w / 16777216 % 256) + 4294967296 * (w / 4294967296 % 256) +
      1099511627776 * (w / 1099511627776 % 256) +
      281474976710656 * (w / 281474976710656 % 256) +
      72057594037927936 * (w / 72057594037927936 % 256) = w := by omega
  simp only [encodeFloat64, List.cons_append, List.nil_append, decodeFloat64S, harith]

/-- A value below 128 encodes as a single varint byte. -/
theorem encodeVarint_small (v : Nat) (hv : v < 128) : encodeVarint v = [v] := by
  rw [encodeVarint]
  have h7 : v >>> 7 = 0 := by
    have := Nat.shiftRight_eq_div_pow v 7
    simp at this
    omega
  have h127eq : (127 : Nat) = 2 ^ 7 - 1 := by norm_num
  have h127 : v &&& 127 = v := by
    rw [h127eq]
    exact Nat.and_pow_two_sub_one_of_lt_two_pow (by omega)
  simp [h7, h127]

/-- Every tag used by this schema is a single byte. -/
theorem encodeTag_byte (f w b : Nat) (h : (f <<< 3) ||| w = b) (hb : b < 128) :
    encodeTag f w = [b] := by
  rw [encodeTag, h]
  exact encodeVarint_small b hb

theorem tag_1_0 : encodeTag 1 0 = [8] := encodeTag_byte 1 0 8 (by decide) (by decide)

theorem tag_2_5 : encodeTag 2 5 = [21] := encodeTag_byte 2 5 21 (by decide) (by decide)

theorem tag_3_5 : encodeTag 3 5 = [29] := encodeTag_byte 3 5 29 (by decide) (by decide)

theorem tag_4_5 : encodeTag 4 5 = [37] := encodeTag_byte 4 5 37 (by decide) (by decide)

theorem tag_5_5 : encodeTag 5 5 = [45] := encodeTag_byte 5 5 45 (by decide) (by decide)

theorem tag_1_2 : encodeTag 1 2 = [10] := encodeTag_byte 1 2 10 (by decide) (by decide)

theorem tag_2_2 : encodeTag 2 2 = [18] := encodeTag_byte 2 2 18 (by decide) (by decide)

theorem tag_3_2 : encodeTag 3 2 = [26] := encodeTag_byte 3 2 26 (by decide) (by decide)

theorem tag_4_2 : encodeTag 4 2 = [34] := encodeTag_byte 4 2 34 (by decide) (by decide)

theorem tag_5_1 : encodeTag 5 1 = [41] := encodeTag_byte 5 1 41 (by decide) (by decide)

theorem tag_6_2 : encodeTag 6 2 = [50] := encodeTag_byte 6 2 50 (by decide) (by decide)

theorem tag_7_2 : encodeTag 7 2 = [58] := encodeTag_byte 7 2 58 (by decide) (by decide)

/-- A single sub-128 byte decodes to itself. -/
theorem decodeVarintCore_byte (b : Nat) (hb : b < 128) (rest : List Nat) :
    decodeVarintCore (b :: rest) 0 0 = .ok (b, rest) := by
  have h := decodeVarintCore_encode b 0 0 rest
  rw [encodeVarint_small b hb] at h
  simpa using h

/-- Simp-oriented byte decode for the subtype decoder. -/
theorem decodeVarintS_byte (b : Nat) (hb : b < 128) (rest : List Nat) :
    decodeVarintS (b :: rest) 0 0 = .ok (b, ⟨rest, by simp⟩) :=
  decodeVarintS_ok_of_core _ _ _ _ _ (by simp) (decodeVarintCore_byte b hb rest)

/-- Simp-oriented varint decode of an encoding at loop entry. -/
theorem decodeVarintS_run (n : Nat) (rest : List Nat) :
    decodeVarintS (encodeVarint n ++ rest) 0 0 =
      .ok (n, ⟨rest, by have := encodeVarint_length_pos n; simp; omega⟩) := by
  have h := decodeVarintS_encode n 0 0 rest
    (by have := encodeVarint_length_pos n; simp; omega)
  simpa using h

/-- Simp-oriented length-delimited decode of an encoding. -/
theorem decodeLengthDelimitedS_run (p rest : List Nat) :
    decodeLengthDelimitedS (encodeLengthDelimited p ++ rest) =
      .ok (p, ⟨rest, by
        have := encodeVarint_length_pos p.length
        simp [encodeLengthDelimited]
        omega⟩) :=
  decodeLengthDelimitedS_ok_of_plain _ p rest _ (decodeLengthDelimited_encode p rest)

/-- Simp-oriented float32 decode of an encoding. -/
theorem decodeFloat32S_run (w : Nat) (hw : w < 4294967296) (rest : List Nat) :
    decodeFloat32S (encodeFloat32 w ++ rest) =
      .ok (w, ⟨rest, by simp [encodeFloat32]; omega⟩) :=
  decodeFloat32S_encode w hw rest (by simp [encodeFloat32]; omega)

/-- Simp-oriented float64 decode of an encoding. -/
theorem decodeFloat64S_run (w : Nat) (hw : w < 18446744073709551616) (rest : List Nat) :
    decodeFloat64S (encodeFloat64 w ++ rest) =
      .ok (w, ⟨rest, by simp [encodeFloat64]; omega⟩) :=
  decodeFloat64S_encode w hw rest (by simp [encodeFloat64]; omega)

/-! ### Round-trip of the channel codecs -/

/-- Consuming the serialized `t` column of a TouchChannel appends it. -/
theorem TouchChannel_parse_t (ts : List Nat) : ∀ (more : List Nat) (c : TouchChannel),
    TouchChannel.parseLoop ((ts.flatMap fun v => encodeTag 1 0 ++ encodeVarint v) ++ more) c =
      TouchChannel.parseLoop more { c with t := c.t ++ ts } := by
  induction ts with
  | nil => intro more c; simp
  | cons v ts ih =>
    intro more c
    simp only [tag_1_0, List.cons_append, List.nil_append] at ih ⊢
    simp only [List.flatMap_cons, List.cons_append, List.append_assoc]
    rw [TouchChannel.parseLoop]
    rw [decodeVarintS_byte 8 (by norm_num)]
    simp [decodeVarintS_run, show (8:Nat) &&& 7 = 0 from by decide]
    rw [ih]
    simp

/-- Consuming the serialized `x` column of a TouchChannel appends it. -/
theorem TouchChannel_parse_x (xs : List Nat) (hxs : ∀ v ∈ xs, v < 4294967296) :
    ∀ (more : List Nat) (c : TouchChannel),
    TouchChannel.parseLoop ((xs.flatMap fun v => encodeTag 2 5 ++ encodeFloat32 v) ++ more) c =
      TouchChannel.parseLoop more { c with x := c.x ++ xs } := by
  induction xs with
  | nil => intro more c; simp
  | cons v vs ih =>
    have hv : v < 4294967296 := hxs v (by simp)
    have hvs : ∀ u ∈ vs, u < 4294967296 := fun u hu => hxs u (by simp [hu])
    intro more c
    simp only [tag_2_5, List.cons_append, List.nil_append] at ih ⊢
    simp only [List.flatMap_cons, List.cons_append, List.append_assoc]
    rw [TouchChannel.parseLoop]
    rw [decodeVarintS_byte 21 (by norm_num)]
    simp [decodeFloat32S_run v hv, show (21:Nat) &&& 7 = 5 from by decide,
      show (21:Nat) >>> 3 = 2 from by decide]
    rw [ih hvs]
    simp

/-- Consuming the serialized `y` column of a TouchChannel appends it. -/
theorem TouchChannel_parse_y (ys : List Nat) (hys : ∀ v ∈ ys, v < 4294967296) :
    ∀ (more : List Nat) (c : TouchChannel),
    TouchChannel.parseLoop ((ys.flatMap fun v => encodeTag 3 5 ++ encodeFloat32 v) ++ more) c =
      TouchChannel.parseLoop more { c with y := c.y ++ ys } := by
  induction ys with
  | nil => intro more c; simp
  | cons v vs ih =>
    have hv : v < 4294967296 := hys v (by simp)
    have hvs : ∀ u ∈ vs, u < 4294967296 := fun u hu => hys u (by simp [hu])
    intro more c
    simp only [tag_3_5, List.cons_append, List.nil_append] at ih ⊢
    simp only [List.flatMap_cons, List.cons_append, List.append_assoc]
    rw [TouchChannel.parseLoop]
    rw [decodeVarintS_byte 29 (by norm_num)]
    simp [decodeFloat32S_run v hv, show (29:Nat) &&& 7 = 5 from by decide,
      show (29:Nat) >>> 3 = 3 from by decide]
    rw [ih hvs]
    simp

/-- Consuming the serialized `pressure` column of a TouchChannel appends it. -/
theorem TouchChannel_parse_pressure (ps : List Nat) (hps : ∀ v ∈ ps, v < 4294967296) :
    ∀ (more : List Nat) (c : TouchChannel),
    TouchChannel.parseLoop ((ps.flatMap fun v => encodeTag 4 5 ++ encodeFloat32 v) ++ more) c =
      TouchChannel.parseLoop more { c with pressure := c.pressure ++ ps } := by
  induction ps with
  | nil => intro more c; simp
  | cons v vs ih =>
    have hv : v < 4294967296 := hps v (by simp)
    have hvs : ∀ u ∈ vs, u < 4294967296 := fun u hu => hps u (by simp [hu])
    intro more c
    simp only [tag_4_5, List.cons_append, List.nil_append] at ih ⊢
    simp only [List.flatMap_cons, List.cons_append, List.append_assoc]
    rw [TouchChannel.parseLoop]
    rw [decodeVarintS_byte 37 (by norm_num)]
    simp [decodeFloat32S_run v hv, show (37:Nat) &&& 7 = 5 from by decide,
      show (37:Nat) >>> 3 = 4 from by decide]
    rw [ih hvs]
    simp

/-- Consuming the serialized `size` column of a TouchChannel appends it. -/
theorem TouchChannel_parse_size (ss : List Nat) (hss : ∀ v ∈ ss, v < 4294967296) :
    ∀ (more : List Nat) (c : TouchChannel),
    TouchChannel.parseLoop ((ss.flatMap fun v => encodeTag 5 5 ++ encodeFloat32 v) ++ more) c =
      TouchChannel.parseLoop more { c with size := c.size ++ ss } := by
  induction ss with
  | nil => intro more c; simp
  | cons v vs ih =>
    have hv : v < 4294967296 := hss v (by simp)
    have hvs : ∀ u ∈ vs, u < 4294967296 := fun u hu => hss u (by simp [hu])
    intro more c
    simp only [tag_5_5, List.cons_append, List.nil_append] at ih ⊢
    simp only [List.flatMap_cons, List.cons_append, List.append_assoc]
    rw [TouchChannel.parseLoop]
    rw [decodeVarintS_byte 45 (by norm_num)]
    simp [decodeFloat32S_run v hv, show (45:Nat) &&& 7 = 5 from by decide,
      show (45:Nat) >>> 3 = 5 from by decide]
    rw [ih hvs]
    simp

/-- Parsing an empty buffer returns the accumulated channel. -/
theorem TouchChannel_parse_nil (c : TouchChannel) :
    TouchChannel.parseLoop [] c = .ok c := by
  rw [TouchChannel.parseLoop]

/-- Round-trip of the TouchChannel codec for valid channel values (no
column-length requirement: the codec round-trips even unequal columns). -/
theorem TouchChannel_roundtrip (c : TouchChannel) (h : c.valid) :
    TouchChannel.ParseFromString c.SerializeToString = .ok c := by
  obtain ⟨hx, hy, hp, hs⟩ := h
  rw [TouchChannel.ParseFromString, TouchChannel.SerializeToString]
  simp only [List.append_assoc]
  rw [← List.append_nil (c.size.flatMap fun v => encodeTag 5 5 ++ encodeFloat32 v)]
  rw [TouchChannel_parse_t, TouchChannel_parse_x c.x hx, TouchChannel_parse_y c.y hy,
    TouchChannel_parse_pressure c.pressure hp, TouchChannel_parse_size c.size hs,
    TouchChannel_parse_nil]
  simp

/-- Consuming the serialized `t` column of AccChannel appends it. -/
theorem AccChannel_parse_t (ts : List Nat) : ∀ (more : List Nat) (c : AccChannel),
    AccChannel.parseLoop ((ts.flatMap fun v => encodeTag 1 0 ++ encodeVarint v) ++ more) c =
      AccChannel.parseLoop more { c with t := c.t ++ ts } := by
  induction ts with
  | nil => intro more c; simp
  | cons v ts ih =>
    intro more c
    simp only [tag_1_0, List.cons_append, List.nil_append] at ih ⊢
    simp only [List.flatMap_cons, List.cons_append, List.append_assoc]
    rw [AccChannel.parseLoop]
    rw [decodeVarintS_byte 8 (by norm_num)]
    simp [decodeVarintS_run, show (8:Nat) &&& 7 = 0 from by decide]
    rw [ih]
    simp

/-- Consuming the serialized `x` column of AccChannel appends it. -/
theorem AccChannel_parse_x (vs0 : List Nat) (hvs0 : ∀ v ∈ vs0, v < 4294967296) :
    ∀ (more : List Nat) (c : AccChannel),
    AccChannel.parseLoop ((vs0.flatMap fun v => encodeTag 2 5 ++ encodeFloat32 v) ++ more) c =
      AccChannel.parseLoop more { c with x := c.x ++ vs0 } := by
  induction vs0 with
  | nil => intro more c; simp
  | cons v vs ih =>
    have hv : v < 4294967296 := hvs0 v (by simp)
    have hvs : ∀ u ∈ vs, u < 4294967296 := fun u hu => hvs0 u (by simp [hu])
    intro more c
    simp only [tag_2_5, List.cons_append, List.nil_append] at ih ⊢
    simp only [List.flatMap_cons, List.cons_append, List.append_assoc]
    rw [AccChannel.parseLoop]
    rw [decodeVarintS_byte 21 (by norm_num)]
    simp [decodeFloat32S_run v hv, show (21:Nat) &&& 7 = 5 from by decide,
      show (21:Nat) >>> 3 = 2 from by decide]
    rw [ih hvs]
    simp

/-- Consuming the serialized `y` column of AccChannel appends it. -/
theorem AccChannel_parse_y (vs0 : List Nat) (hvs0 : ∀ v ∈ vs0, v < 4294967296) :
    ∀ (more : List Nat) (c : AccChannel),
    AccChannel.parseLoop ((vs0.flatMap fun v => encodeTag 3 5 ++ encodeFloat32 v) ++ more) c =
      AccChannel.parseLoop more { c with y := c.y ++ vs0 } := by
  induction vs0 with
  | nil => intro more c; simp
  | cons v vs ih =>
    have hv : v < 4294967296 := hvs0 v (by simp)
    have hvs : ∀ u ∈ vs, u < 4294967296 := fun u hu => hvs0 u (by simp [hu])
    intro more c
    simp only [tag_3_5, List.cons_append, List.nil_append] at ih ⊢
    simp only [List.flatMap_cons, List.cons_append, List.append_assoc]
    rw [AccChannel.parseLoop]
    rw [decodeVarintS_byte 29 (by norm_num)]
    simp [decodeFloat32S_run v hv, show (29:Nat) &&& 7 = 5 from by decide,
      show (29:Nat) >>> 3 = 3 from by decide]
    rw [ih hvs]
    simp

/-- Consuming the serialized `z` column of AccChannel appends it. -/
theorem AccChannel_parse_z (vs0 : List Nat) (hvs0 : ∀ v ∈ vs0, v < 4294967296) :
    ∀ (more : List Nat) (c : AccChannel),
    AccChannel.parseLoop ((vs0.flatMap fun v => encodeTag 4 5 ++ encodeFloat32 v) ++ more) c =
      AccChannel.parseLoop more { c with z := c.z ++ vs0 } := by
  induction vs0 with
  | nil => intro more c; simp
  | cons v vs ih =>
    have hv : v < 4294967296 := hvs0 v (by simp)
    have hvs : ∀ u ∈ vs, u < 4294967296 := fun u hu => hvs0 u (by simp [hu])
    intro more c
    simp only [tag_4_5, List.cons_append, List.nil_append] at ih ⊢
    simp only [List.flatMap_cons, List.cons_append, List.append_assoc]
    rw [AccChannel.parseLoop]
    rw [decodeVarintS_byte 37 (by norm_num)]
    simp [decodeFloat32S_run v hv, show (37:Nat) &&& 7 = 5 from by decide,
      show (37:Nat) >>> 3 = 4 from by decide]
    rw [ih hvs]
    simp

/-- Parsing an empty buffer returns the accumulated channel. -/
theorem AccChannel_parse_nil (c : AccChannel) :
    AccChannel.parseLoop [] c = .ok c := by
  rw [AccChannel.parseLoop]

/-- Round-trip of the AccChannel codec for valid channel values. -/
theorem AccChannel_roundtrip (c : AccChannel) (h : c.valid) :
    AccChannel.ParseFromString c.SerializeToString = .ok c := by
  obtain ⟨hx, hy, hz⟩ := h
  rw [AccChannel.ParseFromString, AccChannel.SerializeToString]
  simp only [List.append_assoc]
  rw [← List.append_nil (c.z.flatMap fun v => encodeTag 4 5 ++ encodeFloat32 v)]
  rw [AccChannel_parse_t, AccChannel_parse_x c.x hx, AccChannel_parse_y c.y hy,
    AccChannel_parse_z c.z hz, AccChannel_parse_nil]
  simp

/-- Consuming the serialized `t` column of GyroChannel appends it. -/
theorem GyroChannel_parse_t (ts : List Nat) : ∀ (more : List Nat) (c : GyroChannel),
    GyroChannel.parseLoop ((ts.flatMap fun v => encodeTag 1 0 ++ encodeVarint v) ++ more) c =
      GyroChannel.parseLoop more { c with t := c.t ++ ts } := by
  induction ts with
  | nil => intro more c; simp
  | cons v ts ih =>
    intro more c
    simp only [tag_1_0, List.cons_append, List.nil_append] at ih ⊢
    simp only [List.flatMap_cons, List.cons_append, List.append_assoc]
    rw [GyroChannel.parseLoop]
    rw [decodeVarintS_byte 8 (by norm_num)]
    simp [decodeVarintS_run, show (8:Nat) &&& 7 = 0 from by decide]
    rw [ih]
    simp

/-- Consuming the serialized `x` column of GyroChannel appends it. -/
theorem GyroChannel_parse_x (vs0 : List Nat) (hvs0 : ∀ v ∈ vs0, v < 4294967296) :
    ∀ (more : List Nat) (c : GyroChannel),
    GyroChannel.parseLoop ((vs0.flatMap fun v => encodeTag 2 5 ++ encodeFloat32 v) ++ more) c =
      GyroChannel.parseLoop more { c with x := c.x ++ vs0 } := by
  induction vs0 with
  | nil => intro more c; simp
  | cons v vs ih =>
    have hv : v < 4294967296 := hvs0 v (by simp)
    have hvs : ∀ u ∈ vs, u < 4294967296 := fun u hu => hvs0 u (by simp [hu])
    intro more c
    simp only [tag_2_5, List.cons_append, List.nil_append] at ih ⊢
    simp only [List.flatMap_cons, List.cons_append, List.append_assoc]
    rw [GyroChannel.parseLoop]
    rw [decodeVarintS_byte 21 (by norm_num)]
    simp [decodeFloat32S_run v hv, show (21:Nat) &&& 7 = 5 from by decide,
      show (21:Nat) >>> 3 = 2 from by decide]
    rw [ih hvs]
    simp

/-- Consuming the serialized `y` column of GyroChannel appends it. -/
theorem GyroChannel_parse_y (vs0 : List Nat) (hvs0 : ∀ v ∈ vs0, v < 4294967296) :
    ∀ (more : List Nat) (c : GyroChannel),
    GyroChannel.parseLoop ((vs0.flatMap fun v => encodeTag 3 5 ++ encodeFloat32 v) ++ more) c =
      GyroChannel.parseLoop more { c with y := c.y ++ vs0 } := by
  induction vs0 with
  | nil => intro more c; simp
  | cons v vs ih =>
    have hv : v < 4294967296 := hvs0 v (by simp)
    have hvs : ∀ u ∈ vs, u < 4294967296 := fun u hu => hvs0 u (by simp [hu])
    intro more c
    simp only [tag_3_5, List.cons_append, List.nil_append] at ih ⊢
    simp only [List.flatMap_cons, List.cons_append, List.append_assoc]
    rw [GyroChannel.parseLoop]
    rw [decodeVarintS_byte 29 (by norm_num)]
    simp [decodeFloat32S_run v hv, show (29:Nat) &&& 7 = 5 from by decide,
      show (29:Nat) >>> 3 = 3 from by decide]
    rw [ih hvs]
    simp

/-- Consuming the serialized `z` column of GyroChannel appends it. -/
theorem GyroChannel_parse_z (vs0 : List Nat) (hvs0 : ∀ v ∈ vs0, v < 4294967296) :
    ∀ (more : List Nat) (c : GyroChannel),
    GyroChannel.parseLoop ((vs0.flatMap fun v => encodeTag 4 5 ++ encodeFloat32 v) ++ more) c =
      GyroChannel.parseLoop more { c with z := c.z ++ vs0 } := by
  induction vs0 with
  | nil => intro more c; simp
  | cons v vs ih =>
    have hv : v < 4294967296 := hvs0 v (by simp)
    have hvs : ∀ u ∈ vs, u < 4294967296 := fun u hu => hvs0 u (by simp [hu])
    intro more c
    simp only [tag_4_5, List.cons_append, List.nil_append] at ih ⊢
    simp only [List.flatMap_cons, List.cons_append, List.append_assoc]
    rw [GyroChannel.parseLoop]
    rw [decodeVarintS_byte 37 (by norm_num)]
    simp [decodeFloat32S_run v hv, show (37:Nat) &&& 7 = 5 from by decide,
      show (37:Nat) >>> 3 = 4 from by decide]
    rw [ih hvs]
    simp

/-- Parsing an empty buffer returns the accumulated channel. -/
theorem GyroChannel_parse_nil (c : GyroChannel) :
    GyroChannel.parseLoop [] c = .ok c := by
  rw [GyroChannel.parseLoop]

/-- Round-trip of the GyroChannel codec for valid channel values. -/
theorem GyroChannel_roundtrip (c : GyroChannel) (h : c.valid) :
    GyroChannel.ParseFromString c.SerializeToString = .ok c := by
  obtain ⟨hx, hy, hz⟩ := h
  rw [GyroChannel.ParseFromString, GyroChannel.SerializeToString]
  simp only [List.append_assoc]
  rw [← List.append_nil (c.z.flatMap fun v => encodeTag 4 5 ++ encodeFloat32 v)]
  rw [GyroChannel_parse_t, GyroChannel_parse_x c.x hx, GyroChannel_parse_y c.y hy,
    GyroChannel_parse_z c.z hz, GyroChannel_parse_nil]
  simp

/-- Consuming the optional `version` section of a serialized Manifest. -/
theorem Manifest_parse_opt_version (s : Bytes) (more : List Nat) (m : Manifest) :
    Manifest.parseLoop ((if s ≠ [] then encodeTag 1 2 ++ encodeLengthDelimited s else []) ++ more) m =
      Manifest.parseLoop more (if s ≠ [] then { m with version := s } else m) := by
  by_cases hs : s ≠ []
  · rw [if_pos hs, if_pos hs, tag_1_2]
    simp only [List.cons_append, List.nil_append, List.append_assoc]
    rw [Manifest.parseLoop]
    rw [decodeVarintS_byte 10 (by norm_num)]
    simp [decodeLengthDelimitedS_run, show (10:Nat) >>> 3 = 1 from by decide,
      show (10:Nat) &&& 7 = 2 from by decide]
  · rw [if_neg hs, if_neg hs]
    simp

/-- Consuming the optional `package_id` section of a serialized Manifest. -/
theorem Manifest_parse_opt_package_id (s : Bytes) (more : List Nat) (m : Manifest) :
    Manifest.parseLoop ((if s ≠ [] then encodeTag 2 2 ++ encodeLengthDelimited s else []) ++ more) m =
      Manifest.parseLoop more (if s ≠ [] then { m with package_id := s } else m) := by
  by_cases hs : s ≠ []
  · rw [if_pos hs, if_pos hs, tag_2_2]
    simp only [List.cons_append, List.nil_append, List.append_assoc]
    rw [Manifest.parseLoop]
    rw [decodeVarintS_byte 18 (by norm_num)]
    simp [decodeLengthDelimitedS_run, show (18:Nat) >>> 3 = 2 from by decide,
      show (18:Nat) &&& 7 = 2 from by decide]
  · rw [if_neg hs, if_neg hs]
    simp

/-- Consuming the optional `source` section of a serialized Manifest. -/
theorem Manifest_parse_opt_source (s : Bytes) (more : List Nat) (m : Manifest) :
    Manifest.parseLoop ((if s ≠ [] then encodeTag 3 2 ++ encodeLengthDelimited s else []) ++ more) m =
      Manifest.parseLoop more (if s ≠ [] then { m with source := s } else m) := by
  by_cases hs : s ≠ []
  · rw [if_pos hs, if_pos hs, tag_3_2]
    simp only [List.cons_append, List.nil_append, List.append_assoc]
    rw [Manifest.parseLoop]
    rw [decodeVarintS_byte 26 (by norm_num)]
    simp [decodeLengthDelimitedS_run, show (26:Nat) >>> 3 = 3 from by decide,
      show (26:Nat) &&& 7 = 2 from by decide]
  · rw [if_neg hs, if_neg hs]
    simp

/-- Consuming the optional `device_profile` section of a serialized Manifest. -/
theorem Manifest_parse_opt_device_profile (s : Bytes) (more : List Nat) (m : Manifest) :
    Manifest.parseLoop ((if s ≠ [] then encodeTag 4 2 ++ encodeLengthDelimited s else []) ++ more) m =
      Manifest.parseLoop more (if s ≠ [] then { m with device_profile := s } else m) := by
  by_cases hs : s ≠ []
  · rw [if_pos hs, if_pos hs, tag_4_2]
    simp only [List.cons_append, List.nil_append, List.append_assoc]
    rw [Manifest.parseLoop]
    rw [decodeVarintS_byte 34 (by norm_num)]
    simp [decodeLengthDelimitedS_run, show (34:Nat) >>> 3 = 4 from by decide,
      show (34:Nat) &&& 7 = 2 from by decide]
  · rw [if_neg hs, if_neg hs]
    simp

/-- Consuming the optional `created_at` section of a serialized Manifest. -/
theorem Manifest_parse_opt_created_at (s : Bytes) (more : List Nat) (m : Manifest) :
    Manifest.parseLoop ((if s ≠ [] then encodeTag 6 2 ++ encodeLengthDelimited s else []) ++ more) m =
      Manifest.parseLoop more (if s ≠ [] then { m with created_at := s } else m) := by
  by_cases hs : s ≠ []
  · rw [if_pos hs, if_pos hs, tag_6_2]
    simp only [List.cons_append, List.nil_append, List.append_assoc]
    rw [Manifest.parseLoop]
    rw [decodeVarintS_byte 50 (by norm_num)]
    simp [decodeLengthDelimitedS_run, show (50:Nat) >>> 3 = 6 from by decide,
      show (50:Nat) &&& 7 = 2 from by decide]
  · rw [if_neg hs, if_neg hs]
    simp

/-- Consuming the optional `dpi` section of a serialized Manifest. -/
theorem Manifest_parse_opt_dpi (w : Nat) (hw : w < 18446744073709551616)
    (more : List Nat) (m : Manifest) :
    Manifest.parseLoop ((if float64Truthy w then encodeTag 5 1 ++ encodeFloat64 w else []) ++ more) m =
      Manifest.parseLoop more (if float64Truthy w then { m with dpi := w } else m) := by
  by_cases hn : float64Truthy w
  · rw [if_pos hn, if_pos hn, tag_5_1]
    simp only [List.cons_append, List.nil_append, List.append_assoc]
    rw [Manifest.parseLoop]
    rw [decodeVarintS_byte 41 (by norm_num)]
    simp [decodeFloat64S_run w hw, show (41:Nat) >>> 3 = 5 from by decide,
      show (41:Nat) &&& 7 = 1 from by decide]
  · rw [if_neg hn, if_neg hn]
    simp

/-- Parsing an empty buffer returns the accumulated manifest. -/
theorem Manifest_parse_nil (m : Manifest) : Manifest.parseLoop [] m = .ok m := by
  rw [Manifest.parseLoop]

/-- A fresh key is appended by the Python dict assignment. -/
theorem updateAssoc_not_mem (l : List (Bytes × Bytes)) (k v : Bytes)
    (hk : k ∉ l.map Prod.fst) : updateAssoc l k v = l ++ [(k, v)] := by
  induction l with
  | nil => rfl
  | cons kv rest ih =>
    obtain ⟨k0, v0⟩ := kv
    simp only [List.map_cons, List.mem_cons] at hk
    push_neg at hk
    rw [updateAssoc, if_neg (Ne.symm hk.1), ih hk.2]
    simp

/-- Parsing one serialized attribute map entry yields its key and value. -/
theorem Manifest_attr_entry (k v : Bytes) :
    Manifest.parseAttributeEntryLoop
      (encodeTag 1 2 ++ (encodeLengthDelimited k ++
        (encodeTag 2 2 ++ encodeLengthDelimited v))) [] [] = .ok (k, v) := by
  have hp := decodeLengthDelimited_encode v []
  rw [List.append_nil] at hp
  have hv := decodeLengthDelimitedS_ok_of_plain (encodeLengthDelimited v) v []
    (by have := encodeVarint_length_pos v.length; simp [encodeLengthDelimited]; omega) hp
  rw [tag_1_2, tag_2_2]
  simp only [List.cons_append, List.nil_append, List.append_assoc]
  rw [Manifest.parseAttributeEntryLoop.eq_2]
  rw [decodeVarintS_byte 10 (by norm_num)]
  simp [decodeLengthDelimitedS_run, show (10:Nat) >>> 3 = 1 from by decide,
    show (10:Nat) &&& 7 = 2 from by decide]
  rw [Manifest.parseAttributeEntryLoop.eq_2]
  rw [decodeVarintS_byte 18 (by norm_num)]
  simp [hv, show (18:Nat) >>> 3 = 2 from by decide,
    show (18:Nat) &&& 7 = 2 from by decide]
  rw [Manifest.parseAttributeEntryLoop.eq_1]

/-- Consuming the serialized attribute entries appends them to the map, for
non-empty pairwise-distinct keys not already present. -/
theorem Manifest_parse_attrs (entries : List (Bytes × Bytes)) :
    ∀ (more : List Nat) (m : Manifest),
    (∀ kv ∈ entries, kv.1 ≠ []) →
    (entries.map Prod.fst).Nodup →
    (∀ kv ∈ entries, kv.1 ∉ m.attributes.map Prod.fst) →
    Manifest.parseLoop ((entries.flatMap fun kv =>
        encodeTag 7 2 ++ encodeLengthDelimited
          (encodeTag 1 2 ++ (encodeLengthDelimited kv.1 ++
           (encodeTag 2 2 ++ encodeLengthDelimited kv.2)))) ++ more) m =
      Manifest.parseLoop more { m with attributes := m.attributes ++ entries } := by
  induction entries with
  | nil => intro more m _ _ _; simp
  | cons kv rest ih =>
    obtain ⟨k, v⟩ := kv
    intro more m hne hnd hdisj
    have hk : k ≠ [] := hne (k, v) (by simp)
    have hkm : k ∉ m.attributes.map Prod.fst := hdisj (k, v) (by simp)
    simp only [tag_7_2, List.cons_append, List.nil_append, List.append_assoc] at ih
    simp only [List.flatMap_cons, tag_7_2, List.cons_append, List.nil_append,
      List.append_assoc]
    rw [Manifest.parseLoop]
    rw [decodeVarintS_byte 58 (by norm_num)]
    simp only [show (58:Nat) >>> 3 = 7 from by decide,
      show (58:Nat) &&& 7 = 2 from by decide]
    simp [decodeLengthDelimitedS_run, Manifest_attr_entry, Manifest.applyAttributeEntry,
      hk, updateAssoc_not_mem m.attributes k v hkm]
    have hne2 : ∀ kv ∈ rest, kv.1 ≠ [] := fun kv hkv => hne kv (by simp [hkv])
    have hnd2 : (rest.map Prod.fst).Nodup := by
      simp only [List.map_cons, List.nodup_cons] at hnd
      exact hnd.2
    have hknotin : k ∉ rest.map Prod.fst := by
      simp only [List.map_cons, List.nodup_cons] at hnd
      exact hnd.1
    have hdisj2 : ∀ kv ∈ rest, kv.1 ∉
        ({ m with attributes := m.attributes ++ [(k, v)] } : Manifest).attributes.map Prod.fst := by
      intro kv hkv
      simp only [List.map_append, List.mem_append]
      push_neg
      refine ⟨hdisj kv (by simp [hkv]), ?_⟩
      simp only [List.map_cons, List.map_nil, List.mem_singleton]
      intro heq
      exact hknotin (by
        have : kv.1 ∈ rest.map Prod.fst := List.mem_map_of_mem Prod.fst hkv
        rwa [heq] at this)
    rw [ih more { m with attributes := m.attributes ++ [(k, v)] } hne2 hnd2 hdisj2]
    simp

/-- A falsy float64 pattern is positive or negative zero. -/
theorem float64Truthy_false (w : Nat) (hw : float64Truthy w = false) :
    w = 0 ∨ w = 9223372036854775808 := by
  have hf2 : (w == 0) = true ∨ (w == 9223372036854775808) = true := by
    cases hb : (w == 0) <;> cases hc : (w == 9223372036854775808) <;>
      simp_all [float64Truthy]
  rcases hf2 with h | h
  · exact Or.inl (by simpa using h)
  · exact Or.inr (by simpa using h)

set_option maxHeartbeats 1000000 in
/-- Round-trip of the Manifest codec for valid manifest values. -/
theorem Manifest_roundtrip (m : Manifest) (h : m.valid) :
    Manifest.ParseFromString m.SerializeToString = .ok m := by
  obtain ⟨hdpi, hnz, hne, hnd⟩ := h
  rw [Manifest.ParseFromString, Manifest.SerializeToString]
  simp only [List.append_assoc]
  rw [← List.append_nil (m.attributes.flatMap fun kv =>
    encodeTag 7 2 ++ encodeLengthDelimited
      (encodeTag 1 2 ++ (encodeLengthDelimited kv.1 ++
       (encodeTag 2 2 ++ encodeLengthDelimited kv.2))))]
  rw [Manifest_parse_opt_version, Manifest_parse_opt_package_id,
    Manifest_parse_opt_source, Manifest_parse_opt_device_profile,
    Manifest_parse_opt_dpi m.dpi hdpi, Manifest_parse_opt_created_at]
  rw [Manifest_parse_attrs m.attributes [] _ hne hnd (by split_ifs <;> simp)]
  rw [Manifest_parse_nil]
  congr 1
  rcases Bool.eq_false_or_eq_true (float64Truthy m.dpi) with hdt | hdt
  · obtain ⟨mv, mpid, msrc, mdev, mdpi, mcre, mattr⟩ := m
    simp only [hdt]
    split_ifs <;> simp_all
  · have hd0 : m.dpi = 0 := (float64Truthy_false m.dpi hdt).resolve_right hnz
    obtain ⟨mv, mpid, msrc, mdev, mdpi, mcre, mattr⟩ := m
    simp only at hd0
    simp only [hdt, hd0]
    split_ifs <;> simp_all

/-! ### The write_package success path -/

/-- Forward evaluation of `write_package`: when the three channels pass the
column-length check and the re-read parses succeed, the writer produces
exactly the package state `pkgFS` and returns `pkgIndex`. -/
theorem write_package_eval (ext : ExtFuns) (m : Manifest) (tc : TouchChannel)
    (ac : AccChannel) (gc : GyroChannel) (lvl : Nat)
    (pt : TouchChannel) (pa : AccChannel) (pg : GyroChannel)
    (hvt : ensure_lengths_match (ChannelMessage.columns (.touch tc)) = .ok ())
    (hva : ensure_lengths_match (ChannelMessage.columns (.acc ac)) = .ok ())
    (hvg : ensure_lengths_match (ChannelMessage.columns (.gyro gc)) = .ok ())
    (hpt : TouchChannel.ParseFromString
      (ext.decompress (ext.compress lvl tc.SerializeToString)) = .ok pt)
    (hpa : AccChannel.ParseFromString
      (ext.decompress (ext.compress lvl ac.SerializeToString)) = .ok pa)
    (hpg : GyroChannel.ParseFromString
      (ext.decompress (ext.compress lvl gc.SerializeToString)) = .ok pg) :
    write_package ext m tc ac gc lvl =
      (.ok (pkgIndex ext lvl m tc ac gc pt pa pg),
       pkgFS ext lvl m tc ac gc (pkgIndex ext lvl m tc ac gc pt pa pg)) := by
  simp only [write_package, write_channel_pbz, ChannelMessage.serialize,
    hvt, hva, hvg, bind, Except.bind, pure, Except.pure,
    fsMkdir, fsWrite, fsRead, build_index, read_channel_pbz,
    compute_checksums, checksumInputs4, pkgIndex, pkgFS]
  simp [hpt, hpa, hpg, Except.mapError, fsMkdir, fsWrite, fsRead, compute_checksums,
    bind, Except.bind, write_checksum_file_content, joinNewline]

/-- Inversion of a successful `write_package` run: the validations and
re-read parses must have succeeded, and the returned index and final
package state are exactly `pkgIndex` and `pkgFS`. -/
theorem write_package_ok_inv (ext : ExtFuns) (m : Manifest) (tc : TouchChannel)
    (ac : AccChannel) (gc : GyroChannel) (lvl : Nat) (idx : Index) (fs : FS)
    (hok : write_package ext m tc ac gc lvl = (.ok idx, fs)) :
    ∃ pt pa pg,
      TouchChannel.ParseFromString
        (ext.decompress (ext.compress lvl tc.SerializeToString)) = .ok pt ∧
      AccChannel.ParseFromString
        (ext.decompress (ext.compress lvl ac.SerializeToString)) = .ok pa ∧
      GyroChannel.ParseFromString
        (ext.decompress (ext.compress lvl gc.SerializeToString)) = .ok pg ∧
      idx = pkgIndex ext lvl m tc ac gc pt pa pg ∧
      fs = pkgFS ext lvl m tc ac gc (pkgIndex ext lvl m tc ac gc pt pa pg) := by
  cases hvt : ensure_lengths_match (ChannelMessage.columns (.touch tc)) with
  | error e =>
    simp only [write_package, write_channel_pbz, ChannelMessage.serialize,
      hvt, bind, Except.bind] at hok
    simp at hok
  | ok u =>
  cases u
  cases hva : ensure_lengths_match (ChannelMessage.columns (.acc ac)) with
  | error e =>
    simp only [write_package, write_channel_pbz, ChannelMessage.serialize,
      hvt, hva, bind, Except.bind] at hok
    simp at hok
  | ok u =>
  cases u
  cases hvg : ensure_lengths_match (ChannelMessage.columns (.gyro gc)) with
  | error e =>
    simp only [write_package, write_channel_pbz, ChannelMessage.serialize,
      hvt, hva, hvg, bind, Except.bind] at hok
    simp at hok
  | ok u =>
  cases u
  cases hpt : TouchChannel.ParseFromString
      (ext.decompress (ext.compress lvl tc.SerializeToString)) with
  | error e =>
    simp [write_package, write_channel_pbz, ChannelMessage.serialize, build_index,
      read_channel_pbz, fsMkdir, fsWrite, fsRead, bind, Except.bind, Except.mapError,
      hvt, hva, hvg, hpt] at hok
  | ok pt =>
  cases hpa : AccChannel.ParseFromString
      (ext.decompress (ext.compress lvl ac.SerializeToString)) with
  | error e =>
    simp [write_package, write_channel_pbz, ChannelMessage.serialize, build_index,
      read_channel_pbz, fsMkdir, fsWrite, fsRead, bind, Except.bind, Except.mapError,
      hvt, hva, hvg, hpt, hpa] at hok
  | ok pa =>
  cases hpg : GyroChannel.ParseFromString
      (ext.decompress (ext.compress lvl gc.SerializeToString)) with
  | error e =>
    simp [write_package, write_channel_pbz, ChannelMessage.serialize, build_index,
      read_channel_pbz, fsMkdir, fsWrite, fsRead, bind, Except.bind, Except.mapError,
      hvt, hva, hvg, hpt, hpa, hpg] at hok
  | ok pg =>
    rw [write_package_eval ext m tc ac gc lvl pt pa pg hvt hva hvg hpt hpa hpg] at hok
    simp only [Prod.mk.injEq, Except.ok.injEq] at hok
    exact ⟨pt, pa, pg, rfl, rfl, rfl, hok.1.symm, hok.2.symm⟩

/-! ### Claim theorems -/

/-- C1: after a successful `write_package` call, `checksums.txt` holds
exactly five newline-terminated lines, in the order manifest.json,
channels/touch.pbz, channels/acc.pbz, channels/gyro.pbz, index.json, each of
the form `<sha256-hex>  <relative-path>` with two spaces, where each hash is
the SHA-256 (a 64-character lowercase-hex digest) of that artifact's bytes
as they are on disk when the package is closed. -/
theorem claim_C1_checksum_file (ext : ExtFuns) (m : Manifest) (tc : TouchChannel)
    (ac : AccChannel) (gc : GyroChannel) (lvl : Nat) (idx : Index) (fs : FS)
    (hhex : ∀ d, IsSha256Hex (ext.sha256hex d))
    (hok : write_package ext m tc ac gc lvl = (.ok idx, fs)) :
    ∃ dm dt da dg di : FData,
      fsRead fs "manifest.json" = some dm ∧
      fsRead fs "channels/touch.pbz" = some dt ∧
      fsRead fs "channels/acc.pbz" = some da ∧
      fsRead fs "channels/gyro.pbz" = some dg ∧
      fsRead fs "index.json" = some di ∧
      IsSha256Hex (ext.sha256hex dm) ∧ IsSha256Hex (ext.sha256hex dt) ∧
      IsSha256Hex (ext.sha256hex da) ∧ IsSha256Hex (ext.sha256hex dg) ∧
      IsSha256Hex (ext.sha256hex di) ∧
      fsRead fs "checksums.txt" = some (.txt (
        ext.sha256hex dm ++ ("  manifest.json\n" ++
        (ext.sha256hex dt ++ ("  channels/touch.pbz\n" ++
        (ext.sha256hex da ++ ("  channels/acc.pbz\n" ++
        (ext.sha256hex dg ++ ("  channels/gyro.pbz\n" ++
        (ext.sha256hex di ++ "  index.json\n")))))))))) := by
  obtain ⟨pt, pa, pg, hpt, hpa, hpg, hidx, hfs⟩ :=
    write_package_ok_inv ext m tc ac gc lvl idx fs hok
  subst hfs
  refine ⟨.txt (ext.manifestJson m),
          .bin (ext.compress lvl tc.SerializeToString),
          .bin (ext.compress lvl ac.SerializeToString),
          .bin (ext.compress lvl gc.SerializeToString),
          .txt (ext.indexJson (pkgIndex ext lvl m tc ac gc pt pa pg)),
          ?_, ?_, ?_, ?_, ?_, hhex _, hhex _, hhex _, hhex _, hhex _, ?_⟩
  · simp [pkgFS, fsRead]
  · simp [pkgFS, fsRead]
  · simp [pkgFS, fsRead]
  · simp [pkgFS, fsRead]
  · simp [pkgFS, fsRead]
  · simp [pkgFS, fsRead, pkgIndex, write_checksum_file_content, joinNewline,
      String.append_assoc]

/-- The constant digest of `extId` is a 64-character lowercase-hex string. -/
theorem extId_hex (d : FData) : IsSha256Hex (extId.sha256hex d) := by
  have h : extId.sha256hex d = String.mk (List.replicate 64 (Char.ofNat 97)) := rfl
  rw [IsSha256Hex, h]
  constructor
  · decide
  · decide

/-- Witness for C1: a concrete successful `write_package` run (empty
channels, identity compression) exhibits the checksum file layout. -/
theorem claim_C1_checksum_file_witness :
    ∃ dm dt da dg di : FData,
      fsRead (pkgFS extId 3 {} {} {} {} (pkgIndex extId 3 {} {} {} {} {} {} {}))
        "manifest.json" = some dm ∧
      fsRead (pkgFS extId 3 {} {} {} {} (pkgIndex extId 3 {} {} {} {} {} {} {}))
        "channels/touch.pbz" = some dt ∧
      fsRead (pkgFS extId 3 {} {} {} {} (pkgIndex extId 3 {} {} {} {} {} {} {}))
        "channels/acc.pbz" = some da ∧
      fsRead (pkgFS extId 3 {} {} {} {} (pkgIndex extId 3 {} {} {} {} {} {} {}))
        "channels/gyro.pbz" = some dg ∧
      fsRead (pkgFS extId 3 {} {} {} {} (pkgIndex extId 3 {} {} {} {} {} {} {}))
        "index.json" = some di ∧
      IsSha256Hex (extId.sha256hex dm) ∧ IsSha256Hex (extId.sha256hex dt) ∧
      IsSha256Hex (extId.sha256hex da) ∧ IsSha256Hex (extId.sha256hex dg) ∧
      IsSha256Hex (extId.sha256hex di) ∧
      fsRead (pkgFS extId 3 {} {} {} {} (pkgIndex extId 3 {} {} {} {} {} {} {}))
        "checksums.txt" = some (.txt (
        extId.sha256hex dm ++ ("  manifest.json\n" ++
        (extId.sha256hex dt ++ ("  channels/touch.pbz\n" ++
        (extId.sha256hex da ++ ("  channels/acc.pbz\n" ++
        (extId.sha256hex dg ++ ("  channels/gyro.pbz\n" ++
        (extId.sha256hex di ++ "  index.json\n")))))))))) :=
  claim_C1_checksum_file extId {} {} {} {} 3
    (pkgIndex extId 3 {} {} {} {} {} {} {})
    (pkgFS extId 3 {} {} {} {} (pkgIndex extId 3 {} {} {} {} {} {} {}))
    extId_hex
    (write_package_eval extId {} {} {} {} 3 {} {} {} rfl rfl rfl
      (TouchChannel_parse_nil {}) (AccChannel_parse_nil {}) (GyroChannel_parse_nil {}))

/-- C2: a successful `write_package` call returns an Index whose in-memory
checksum list holds exactly the four entries for manifest.json and the three
channel files, in that order, with no entry for index.json; the serialized
index.json on disk is the JSON encoding of that same four-entry index, while
checksums.txt additionally ends with the index.json entry as its last
line. -/
theorem claim_C2_index_asymmetry (ext : ExtFuns) (m : Manifest) (tc : TouchChannel)
    (ac : AccChannel) (gc : GyroChannel) (lvl : Nat) (idx : Index) (fs : FS)
    (hok : write_package ext m tc ac gc lvl = (.ok idx, fs)) :
    idx.checksums.map (fun c => c.path) =
      ["manifest.json", "channels/touch.pbz", "channels/acc.pbz", "channels/gyro.pbz"] ∧
    (∀ c ∈ idx.checksums, c.path ≠ "index.json") ∧
    fsRead fs "index.json" = some (.txt (ext.indexJson idx)) ∧
    ∃ s di : String,
      fsRead fs "checksums.txt" = some (.txt (s ++ (di ++ "  index.json\n"))) ∧
      di = ext.sha256hex (.txt (ext.indexJson idx)) := by
  obtain ⟨pt, pa, pg, hpt, hpa, hpg, hidx, hfs⟩ :=
    write_package_ok_inv ext m tc ac gc lvl idx fs hok
  subst hfs
  subst hidx
  refine ⟨by simp [pkgIndex], by simp [pkgIndex], by simp [pkgFS, fsRead], ?_⟩
  refine ⟨ext.sha256hex (.txt (ext.manifestJson m)) ++ ("  manifest.json\n" ++
      (ext.sha256hex (.bin (ext.compress lvl tc.SerializeToString)) ++
        ("  channels/touch.pbz\n" ++
      (ext.sha256hex (.bin (ext.compress lvl ac.SerializeToString)) ++
        ("  channels/acc.pbz\n" ++
      (ext.sha256hex (.bin (ext.compress lvl gc.SerializeToString)) ++
        "  channels/gyro.pbz\n")))))),
    ext.sha256hex (.txt (ext.indexJson (pkgIndex ext lvl m tc ac gc pt pa pg))), ?_, rfl⟩
  simp [pkgFS, fsRead, pkgIndex, write_checksum_file_content, joinNewline,
    String.append_assoc]

/-- Witness for C2: the same concrete successful run as for C1. -/
theorem claim_C2_index_asymmetry_witness :
    (pkgIndex extId 3 {} {} {} {} {} {} {}).checksums.map (fun c => c.path) =
      ["manifest.json", "channels/touch.pbz", "channels/acc.pbz", "channels/gyro.pbz"] ∧
    (∀ c ∈ (pkgIndex extId 3 {} {} {} {} {} {} {}).checksums, c.path ≠ "index.json") ∧
    fsRead (pkgFS extId 3 {} {} {} {} (pkgIndex extId 3 {} {} {} {} {} {} {}))
      "index.json" =
      some (.txt (extId.indexJson (pkgIndex extId 3 {} {} {} {} {} {} {}))) ∧
    ∃ s di : String,
      fsRead (pkgFS extId 3 {} {} {} {} (pkgIndex extId 3 {} {} {} {} {} {} {}))
        "checksums.txt" = some (.txt (s ++ (di ++ "  index.json\n"))) ∧
      di = extId.sha256hex
        (.txt (extId.indexJson (pkgIndex extId 3 {} {} {} {} {} {} {}))) :=
  claim_C2_index_asymmetry extId {} {} {} {} 3
    (pkgIndex extId 3 {} {} {} {} {} {} {})
    (pkgFS extId 3 {} {} {} {} (pkgIndex extId 3 {} {} {} {} {} {} {}))
    (write_package_eval extId {} {} {} {} 3 {} {} {} rfl rfl rfl
      (TouchChannel_parse_nil {}) (AccChannel_parse_nil {}) (GyroChannel_parse_nil {}))

/-- C3 counterexample: a Manifest carrying an attribute entry with an empty
key does not round-trip: the serializer emits the entry, but the parser
drops it (`if key:`), so the parsed value differs from the original. -/
theorem claim_C3_counterexample :
    Manifest.ParseFromString (Manifest.SerializeToString
      { attributes := [([], [118])] }) ≠
      .ok ({ attributes := [([], [118])] } : Manifest) := by
  have hser : Manifest.SerializeToString { attributes := [([], [118])] } =
      (encodeTag 7 2 ++ encodeLengthDelimited
        (encodeTag 1 2 ++ (encodeLengthDelimited [] ++
          (encodeTag 2 2 ++ encodeLengthDelimited [118])))) ++ [] := by
    simp [Manifest.SerializeToString, float64Truthy, List.append_assoc]
  have hparse : Manifest.ParseFromString (Manifest.SerializeToString
      { attributes := [([], [118])] }) = .ok ({} : Manifest) := by
    rw [Manifest.ParseFromString, hser]
    simp only [tag_7_2, List.cons_append, List.nil_append, List.append_assoc]
    rw [Manifest.parseLoop]
    rw [decodeVarintS_byte 58 (by norm_num)]
    simp [decodeLengthDelimitedS_run, show (58:Nat) >>> 3 = 7 from by decide,
      show (58:Nat) &&& 7 = 2 from by decide, Manifest_attr_entry,
      Manifest.applyAttributeEntry]
    rw [Manifest_parse_nil]
  rw [hparse]
  intro h
  have h2 := Except.ok.inj h
  have h3 : (({} : Manifest)).attributes = [(([] : Bytes), ([118] : Bytes))] := by
    rw [h2]
  simp at h3

/-- C3 amended: the round-trip `parse(serialize(m)) = m` holds field-for-field
for every valid Manifest — attribute keys non-empty and pairwise distinct,
dpi a float64 bit pattern other than negative zero (negative zero is falsy,
is skipped on encode, and parses back as +0.0) — and for every channel value
whose float columns hold float32 bit patterns (scalar equality is bit-exact
equality of patterns). -/
theorem claim_C3_roundtrip_amended :
    (∀ m : Manifest, m.valid → Manifest.ParseFromString m.SerializeToString = .ok m) ∧
    (∀ c : TouchChannel, c.valid → TouchChannel.ParseFromString c.SerializeToString = .ok c) ∧
    (∀ c : AccChannel, c.valid → AccChannel.ParseFromString c.SerializeToString = .ok c) ∧
    (∀ c : GyroChannel, c.valid → GyroChannel.ParseFromString c.SerializeToString = .ok c) :=
  ⟨Manifest_roundtrip, TouchChannel_roundtrip, AccChannel_roundtrip, GyroChannel_roundtrip⟩

/-- Witness for the C3 round-trip on concrete valid values. -/
theorem claim_C3_roundtrip_witness :
    Manifest.ParseFromString (Manifest.SerializeToString
      { version := [114], package_id := [112], dpi := 3,
        attributes := [([107], [118]), ([108], [])] }) =
      .ok { version := [114], package_id := [112], dpi := 3,
            attributes := [([107], [118]), ([108], [])] } ∧
    TouchChannel.ParseFromString (TouchChannel.SerializeToString
      { t := [300, 400], x := [1], y := [2], pressure := [3], size := [4] }) =
      .ok { t := [300, 400], x := [1], y := [2], pressure := [3], size := [4] } ∧
    AccChannel.ParseFromString (AccChannel.SerializeToString
      { t := [5], x := [6], y := [7], z := [8] }) =
      .ok { t := [5], x := [6], y := [7], z := [8] } ∧
    GyroChannel.ParseFromString (GyroChannel.SerializeToString
      { t := [9], x := [10], y := [11], z := [12] }) =
      .ok { t := [9], x := [10], y := [11], z := [12] } :=
  ⟨claim_C3_roundtrip_amended.1 _ (by
      refine ⟨by norm_num, by norm_num, ?_, ?_⟩ <;> decide),
   claim_C3_roundtrip_amended.2.1 _ (by
      refine ⟨?_, ?_, ?_, ?_⟩ <;> decide),
   claim_C3_roundtrip_amended.2.2.1 _ (by
      refine ⟨?_, ?_, ?_⟩ <;> decide),
   claim_C3_roundtrip_amended.2.2.2 _ (by
      refine ⟨?_, ?_, ?_⟩ <;> decide)⟩

/-- `_ensure_lengths_match` either passes or raises the column-length
ValueError. -/
theorem ensure_cases (values : List (List Nat)) :
    ensure_lengths_match values = .ok () ∨
    ensure_lengths_match values = .error .columnLengthMismatch := by
  rw [ensure_lengths_match]
  split
  · exact Or.inr rfl
  · exact Or.inl rfl

/-- `_ensure_lengths_match` passes exactly when all columns have the same
length (the set of lengths has at most one element). -/
theorem ensure_lengths_match_ok_iff (values : List (List Nat)) :
    ensure_lengths_match values = .ok () ↔
      ∀ l1 ∈ values, ∀ l2 ∈ values, l1.length = l2.length := by
  rw [ensure_lengths_match]
  constructor
  · intro h l1 h1 l2 h2
    by_contra hne
    have m1 : l1.length ∈ (values.map List.length).dedup := by
      rw [List.mem_dedup]
      exact List.mem_map_of_mem _ h1
    have m2 : l2.length ∈ (values.map List.length).dedup := by
      rw [List.mem_dedup]
      exact List.mem_map_of_mem _ h2
    have hd : 1 < ((values.map List.length).dedup).length := by
      rcases hdl : (values.map List.length).dedup with _ | ⟨a, _ | ⟨b, rest⟩⟩
      · rw [hdl] at m1
        simp at m1
      · rw [hdl] at m1 m2
        simp at m1 m2
        rw [m1, m2] at hne
        exact absurd rfl hne
      · simp
    rw [if_pos hd] at h
    cases h
  · intro hall
    have hnot : ¬ ((values.map List.length).dedup).length > 1 := by
      intro hgt
      rcases hdl : (values.map List.length).dedup with _ | ⟨a, _ | ⟨b, rest⟩⟩ <;>
        rw [hdl] at hgt
      · simp at hgt
      · simp at hgt
      · have hnd : ((values.map List.length).dedup).Nodup := List.nodup_dedup _
        rw [hdl] at hnd
        have hab : a ≠ b := by
          simp only [List.nodup_cons, List.mem_cons] at hnd
          exact fun heq => hnd.1 (Or.inl heq)
        have ma : a ∈ (values.map List.length).dedup := by rw [hdl]; simp
        have mb : b ∈ (values.map List.length).dedup := by rw [hdl]; simp
        rw [List.mem_dedup, List.mem_map] at ma mb
        obtain ⟨la, hla, ha⟩ := ma
        obtain ⟨lb, hlb, hb⟩ := mb
        exact hab (by rw [← ha, ← hb, hall la hla lb hlb])
    rw [if_neg hnot]

/-- C4 counterexample: `write_package` on a touch channel with unequal
columns fails with the column-length error, but the package root directory
has already been created, contradicting the no-I/O-before-validation
claim. -/
theorem claim_C4_counterexample :
    (write_package extId {} { t := [0] } {} {} 3).1 = .error .columnLengthMismatch ∧
    "." ∈ (write_package extId {} { t := [0] } {} {} 3).2.dirs := by
  have hbad : ensure_lengths_match (ChannelMessage.columns (.touch { t := [0] })) =
      .error .columnLengthMismatch := by decide
  have heval : write_package extId {} { t := [0] } {} {} 3 =
      (.error .columnLengthMismatch, { dirs := ["."], files := [] }) := by
    simp only [write_package, write_channel_pbz, ChannelMessage.serialize,
      hbad, bind, Except.bind, fsMkdir]
    simp
  rw [heval]
  exact ⟨rfl, by simp⟩

/-- C4 amended: a column-length mismatch in any channel makes `write_package`
fail with ColumnLengthMismatch and neither manifest.json, index.json nor
checksums.txt is written — but the package root directory has already been
created, every channel preceding the failing one has already been compressed
and written to disk, and the failing channel's file (and any later channel
file) is not written. -/
theorem claim_C4_amended (ext : ExtFuns) (m : Manifest) (tc : TouchChannel)
    (ac : AccChannel) (gc : GyroChannel) (lvl : Nat)
    (hbad : ensure_lengths_match (ChannelMessage.columns (.touch tc)) =
        .error .columnLengthMismatch ∨
      ensure_lengths_match (ChannelMessage.columns (.acc ac)) =
        .error .columnLengthMismatch ∨
      ensure_lengths_match (ChannelMessage.columns (.gyro gc)) =
        .error .columnLengthMismatch) :
    (write_package ext m tc ac gc lvl).1 = .error .columnLengthMismatch ∧
    fsRead (write_package ext m tc ac gc lvl).2 "manifest.json" = none ∧
    fsRead (write_package ext m tc ac gc lvl).2 "index.json" = none ∧
    fsRead (write_package ext m tc ac gc lvl).2 "checksums.txt" = none ∧
    "." ∈ (write_package ext m tc ac gc lvl).2.dirs ∧
    (ensure_lengths_match (ChannelMessage.columns (.touch tc)) =
        .error .columnLengthMismatch →
      fsRead (write_package ext m tc ac gc lvl).2 "channels/touch.pbz" = none ∧
      fsRead (write_package ext m tc ac gc lvl).2 "channels/acc.pbz" = none ∧
      fsRead (write_package ext m tc ac gc lvl).2 "channels/gyro.pbz" = none ∧
      (write_package ext m tc ac gc lvl).2.files = []) ∧
    (ensure_lengths_match (ChannelMessage.columns (.touch tc)) = .ok () →
      fsRead (write_package ext m tc ac gc lvl).2 "channels/touch.pbz" =
        some (.bin (ext.compress lvl tc.SerializeToString))) ∧
    (ensure_lengths_match (ChannelMessage.columns (.touch tc)) = .ok () →
      ensure_lengths_match (ChannelMessage.columns (.acc ac)) =
        .error .columnLengthMismatch →
      fsRead (write_package ext m tc ac gc lvl).2 "channels/acc.pbz" = none ∧
      fsRead (write_package ext m tc ac gc lvl).2 "channels/gyro.pbz" = none) ∧
    (ensure_lengths_match (ChannelMessage.columns (.touch tc)) = .ok () →
      ensure_lengths_match (ChannelMessage.columns (.acc ac)) = .ok () →
      fsRead (write_package ext m tc ac gc lvl).2 "channels/acc.pbz" =
        some (.bin (ext.compress lvl ac.SerializeToString)) ∧
      fsRead (write_package ext m tc ac gc lvl).2 "channels/gyro.pbz" = none) := by
  rcases ensure_cases (ChannelMessage.columns (.touch tc)) with hvt | hvt
  · rcases ensure_cases (ChannelMessage.columns (.acc ac)) with hva | hva
    · rcases ensure_cases (ChannelMessage.columns (.gyro gc)) with hvg | hvg
      · rcases hbad with h | h | h
        · rw [hvt] at h; cases h
        · rw [hva] at h; cases h
        · rw [hvg] at h; cases h
      · have heval : write_package ext m tc ac gc lvl =
            (.error .columnLengthMismatch,
             { dirs := ["channels", "."],
               files := [("channels/acc.pbz", .bin (ext.compress lvl ac.SerializeToString)),
                         ("channels/touch.pbz", .bin (ext.compress lvl tc.SerializeToString))] }) := by
          simp only [write_package, write_channel_pbz, ChannelMessage.serialize,
            hvt, hva, hvg, bind, Except.bind, fsMkdir, fsWrite]
          simp
        rw [heval]
        refine ⟨rfl, by simp [fsRead], by simp [fsRead], by simp [fsRead], by simp,
          ?_, fun _ => by simp [fsRead], ?_, fun _ _ => ⟨by simp [fsRead], by simp [fsRead]⟩⟩
        · intro habs; rw [hvt] at habs; cases habs
        · intro _ habs; rw [hva] at habs; cases habs
    · have heval : write_package ext m tc ac gc lvl =
          (.error .columnLengthMismatch,
           { dirs := ["channels", "."],
             files := [("channels/touch.pbz", .bin (ext.compress lvl tc.SerializeToString))] }) := by
        simp only [write_package, write_channel_pbz, ChannelMessage.serialize,
          hvt, hva, bind, Except.bind, fsMkdir, fsWrite]
        simp
      rw [heval]
      refine ⟨rfl, by simp [fsRead], by simp [fsRead], by simp [fsRead], by simp,
        ?_, fun _ => by simp [fsRead],
        fun _ _ => ⟨by simp [fsRead], by simp [fsRead]⟩, ?_⟩
      · intro habs; rw [hvt] at habs; cases habs
      · intro _ habs; rw [hva] at habs; cases habs
  · have heval : write_package ext m tc ac gc lvl =
        (.error .columnLengthMismatch, { dirs := ["."], files := [] }) := by
      simp only [write_package, write_channel_pbz, ChannelMessage.serialize,
        hvt, bind, Except.bind, fsMkdir]
      simp
    rw [heval]
    refine ⟨rfl, by simp [fsRead], by simp [fsRead], by simp [fsRead], by simp,
      fun _ => ⟨by simp [fsRead], by simp [fsRead], by simp [fsRead], rfl⟩, ?_, ?_, ?_⟩
    · intro habs; rw [hvt] at habs; cases habs
    · intro habs _; rw [hvt] at habs; cases habs
    · intro habs _; rw [hvt] at habs; cases habs

/-- Witness for C4: a concrete run in which the gyroscope channel is the
failing one — the writer fails, writes no manifest/index/checksum file, has
created the root directory, has already written both the touch and the
accelerometer channel files, and has not written the gyroscope file. -/
theorem claim_C4_amended_witness :
    (write_package extId {} {} {} { t := [0] } 3).1 = .error .columnLengthMismatch ∧
    fsRead (write_package extId {} {} {} { t := [0] } 3).2 "manifest.json" = none ∧
    fsRead (write_package extId {} {} {} { t := [0] } 3).2 "index.json" = none ∧
    fsRead (write_package extId {} {} {} { t := [0] } 3).2 "checksums.txt" = none ∧
    "." ∈ (write_package extId {} {} {} { t := [0] } 3).2.dirs ∧
    (ensure_lengths_match (ChannelMessage.columns (.touch {})) =
        .error .columnLengthMismatch →
      fsRead (write_package extId {} {} {} { t := [0] } 3).2 "channels/touch.pbz" = none ∧
      fsRead (write_package extId {} {} {} { t := [0] } 3).2 "channels/acc.pbz" = none ∧
      fsRead (write_package extId {} {} {} { t := [0] } 3).2 "channels/gyro.pbz" = none ∧
      (write_package extId {} {} {} { t := [0] } 3).2.files = []) ∧
    (ensure_lengths_match (ChannelMessage.columns (.touch {})) = .ok () →
      fsRead (write_package extId {} {} {} { t := [0] } 3).2 "channels/touch.pbz" =
        some (.bin (extId.compress 3 (TouchChannel.SerializeToString {})))) ∧
    (ensure_lengths_match (ChannelMessage.columns (.touch {})) = .ok () →
      ensure_lengths_match (ChannelMessage.columns (.acc {})) =
        .error .columnLengthMismatch →
      fsRead (write_package extId {} {} {} { t := [0] } 3).2 "channels/acc.pbz" = none ∧
      fsRead (write_package extId {} {} {} { t := [0] } 3).2 "channels/gyro.pbz" = none) ∧
    (ensure_lengths_match (ChannelMessage.columns (.touch {})) = .ok () →
      ensure_lengths_match (ChannelMessage.columns (.acc {})) = .ok () →
      fsRead (write_package extId {} {} {} { t := [0] } 3).2 "channels/acc.pbz" =
        some (.bin (extId.compress 3 (AccChannel.SerializeToString {}))) ∧
      fsRead (write_package extId {} {} {} { t := [0] } 3).2 "channels/gyro.pbz" = none) :=
  claim_C4_amended extId {} {} {} { t := [0] } 3 (Or.inr (Or.inr (by decide)))

/-- C5 counterexample: decoding the two-byte buffer `[8, 1]` (one varint
field for column `t`) succeeds and returns a channel whose columns have
unequal lengths — channel parse raises no ColumnLengthMismatch, for any of
the three channel kinds. -/
theorem claim_C5_counterexample :
    TouchChannel.ParseFromString [8, 1] = .ok { t := [1] } ∧
    AccChannel.ParseFromString [8, 1] = .ok { t := [1] } ∧
    GyroChannel.ParseFromString [8, 1] = .ok { t := [1] } ∧
    ensure_lengths_match (ChannelMessage.columns (.touch { t := [1] })) =
      .error .columnLengthMismatch := by
  have hbuf : ([8, 1] : List Nat) =
      ([1].flatMap fun v => encodeTag 1 0 ++ encodeVarint v) ++ [] := by
    simp [tag_1_0, encodeVarint_small]
  refine ⟨?_, ?_, ?_, by decide⟩
  · rw [TouchChannel.ParseFromString, hbuf, TouchChannel_parse_t, TouchChannel_parse_nil]
    simp
  · rw [AccChannel.ParseFromString, hbuf, AccChannel_parse_t, AccChannel_parse_nil]
    simp
  · rw [GyroChannel.ParseFromString, hbuf, GyroChannel_parse_t, GyroChannel_parse_nil]
    simp

/-- C5 amended: channel parse performs no column-length validation — it can
return unequal columns (witnessed by the buffer `[8, 1]`) — and the
ColumnLengthMismatch error is raised only on the encode path:
`_ensure_lengths_match` rejects any unequal column set, and
`write_channel_pbz` therefore fails before writing for any channel with
unequal columns. -/
theorem claim_C5_amended :
    (TouchChannel.ParseFromString [8, 1] = .ok { t := [1] }) ∧
    (∀ values : List (List Nat),
      (¬ ∀ l1 ∈ values, ∀ l2 ∈ values, l1.length = l2.length) →
      ensure_lengths_match values = .error .columnLengthMismatch) ∧
    (∀ (ext : ExtFuns) (ch : ChannelMessage) (path : String) (lvl : Nat) (fs : FS),
      (¬ ∀ l1 ∈ ch.columns, ∀ l2 ∈ ch.columns, l1.length = l2.length) →
      write_channel_pbz ext ch path lvl fs = .error .columnLengthMismatch) := by
  have hens : ∀ values : List (List Nat),
      (¬ ∀ l1 ∈ values, ∀ l2 ∈ values, l1.length = l2.length) →
      ensure_lengths_match values = .error .columnLengthMismatch := by
    intro values hne
    rcases ensure_cases values with h | h
    · exact absurd ((ensure_lengths_match_ok_iff values).mp h) hne
    · exact h
  refine ⟨claim_C5_counterexample.1, hens, ?_⟩
  intro ext ch path lvl fs hne
  simp [write_channel_pbz, hens ch.columns hne, bind, Except.bind]

/-- Witness for C5: the encode-path rejection applied at a concrete unequal
channel. -/
theorem claim_C5_amended_witness :
    TouchChannel.ParseFromString [8, 1] = .ok { t := [1] } ∧
    ensure_lengths_match [[0], []] = .error .columnLengthMismatch ∧
    write_channel_pbz extId (.touch { t := [0] }) "channels/touch.pbz" 3 {} =
      .error .columnLengthMismatch :=
  ⟨claim_C5_amended.1,
   claim_C5_amended.2.1 [[0], []] (by decide),
   claim_C5_amended.2.2 extId (.touch { t := [0] }) "channels/touch.pbz" 3 {}
     (by decide)⟩

/-- C6 counterexample: a length-delimited field declaring 5 bytes with only
2 remaining does not raise — `_decode_length_delimited` silently returns the
2 available bytes (Python slice clamping) and advances the position past the
end of the buffer. -/
theorem claim_C6_counterexample :
    decodeLengthDelimitedAt [5, 97, 98] 0 = .ok ([97, 98], 6) ∧
    ([97, 98] : List Nat).length < 5 := by
  constructor
  · simp [decodeLengthDelimitedAt, decodeVarintAt, decodeVarintCore_byte 5 (by norm_num)]
  · decide

/-- C6 amended: after a successful length prefix decode,
`_decode_length_delimited` always succeeds, returning the clamped slice
`data[newPos : newPos + length]` and position `newPos + length`; the
returned payload has length `min length remaining`, so it is silently
shorter than declared exactly when the declared length exceeds the
remaining buffer — no TruncatedInput is raised for the payload. -/
theorem claim_C6_amended :
    decodeLengthDelimitedAt [5, 97, 98] 0 = .ok ([97, 98], 6) ∧
    (∀ (data : List Nat) (pos len p2 : Nat),
      decodeVarintAt data pos = .ok (len, p2) →
      decodeLengthDelimitedAt data pos = .ok ((data.drop p2).take len, p2 + len) ∧
      ((data.drop p2).take len).length = min len (data.length - p2)) := by
  refine ⟨claim_C6_counterexample.1, ?_⟩
  intro data pos len p2 h
  constructor
  · rw [decodeLengthDelimitedAt, h]
  · simp [List.length_take, List.length_drop]

/-- Witness for C6 at the concrete truncated buffer. -/
theorem claim_C6_amended_witness :
    decodeLengthDelimitedAt [5, 97, 98] 0 =
      .ok ((([5, 97, 98] : List Nat).drop 1).take 5, 1 + 5) ∧
    ((([5, 97, 98] : List Nat).drop 1).take 5).length =
      min 5 (([5, 97, 98] : List Nat).length - 1) :=
  claim_C6_amended.2 [5, 97, 98] 0 5 1
    (by simp [decodeVarintAt, decodeVarintCore_byte 5 (by norm_num)])

/-- The maximum of a three-element duration list. -/
theorem max3_getD (a b c : Rat) : ([a, b, c].max?).getD 0 = max (max a b) c := by
  simp [List.max?]

/-- C7 counterexample: a package whose touch channel has exactly one sample
with timestamp 2000000 gets duration_seconds 2 — the single-sample channel
contributes its own timestamp over 1e6, not 0 as the claim states. -/
theorem claim_C7_counterexample :
    (write_package extId {} touchSingle {} {} 3).1 =
      .ok (pkgIndex extId 3 {} touchSingle {} {} touchSingle {} {}) ∧
    (pkgIndex extId 3 {} touchSingle {} {} touchSingle {} {}).duration_seconds = 2 ∧
    ¬ (pkgIndex extId 3 {} touchSingle {} {} touchSingle {} {}).duration_seconds = 0 := by
  have hpt : TouchChannel.ParseFromString
      (extId.decompress (extId.compress 3 touchSingle.SerializeToString)) =
      .ok touchSingle :=
    TouchChannel_roundtrip _ (by refine ⟨?_, ?_, ?_, ?_⟩ <;> decide)
  have heval := write_package_eval extId {} touchSingle {} {} 3 touchSingle {} {}
    (by decide) rfl rfl hpt (AccChannel_parse_nil {}) (GyroChannel_parse_nil {})
  refine ⟨by rw [heval], ?_, ?_⟩
  · show ([channel_duration touchSingle.t, channel_duration [],
        channel_duration []].max?).getD 0 = 2
    rw [max3_getD]
    norm_num [channel_duration, touchSingle]
  · show ¬ ([channel_duration touchSingle.t, channel_duration [],
        channel_duration []].max?).getD 0 = 0
    rw [max3_getD]
    norm_num [channel_duration, touchSingle]

/-- C7 amended: for lossless compression and valid equal-column channels, a
`write_package` run succeeds and the duration_seconds written into the index
is the maximum over the three channels of their `_channel_duration`, where
an empty channel contributes 0, a single-sample channel contributes its sole
timestamp divided by 1e6, and a longer channel contributes last minus first
over 1e6. -/
theorem claim_C7_amended (ext : ExtFuns) (m : Manifest) (tc : TouchChannel)
    (ac : AccChannel) (gc : GyroChannel) (lvl : Nat)
    (hrt : ∀ b : List Nat, ext.decompress (ext.compress lvl b) = b)
    (hvt : ensure_lengths_match (ChannelMessage.columns (.touch tc)) = .ok ())
    (hva : ensure_lengths_match (ChannelMessage.columns (.acc ac)) = .ok ())
    (hvg : ensure_lengths_match (ChannelMessage.columns (.gyro gc)) = .ok ())
    (hvalt : tc.valid) (hvala : ac.valid) (hvalg : gc.valid) :
    (write_package ext m tc ac gc lvl).1 =
      .ok (pkgIndex ext lvl m tc ac gc tc ac gc) ∧
    (pkgIndex ext lvl m tc ac gc tc ac gc).duration_seconds =
      max (max (channel_duration tc.t) (channel_duration ac.t))
        (channel_duration gc.t) ∧
    channel_duration ([] : List Nat) = 0 ∧
    (∀ t0 : Nat, channel_duration [t0] = (t0 : Rat) / 1000000) ∧
    (∀ (t0 t1 : Nat) (rest : List Nat),
      channel_duration (t0 :: t1 :: rest) =
        (((t1 :: rest).getLast (by simp) : Rat) - (t0 : Rat)) / 1000000) := by
  have hpt : TouchChannel.ParseFromString
      (ext.decompress (ext.compress lvl tc.SerializeToString)) = .ok tc := by
    rw [hrt]
    exact TouchChannel_roundtrip tc hvalt
  have hpa : AccChannel.ParseFromString
      (ext.decompress (ext.compress lvl ac.SerializeToString)) = .ok ac := by
    rw [hrt]
    exact AccChannel_roundtrip ac hvala
  have hpg : GyroChannel.ParseFromString
      (ext.decompress (ext.compress lvl gc.SerializeToString)) = .ok gc := by
    rw [hrt]
    exact GyroChannel_roundtrip gc hvalg
  have heval := write_package_eval ext m tc ac gc lvl tc ac gc hvt hva hvg hpt hpa hpg
  refine ⟨by rw [heval], ?_, rfl, fun t0 => rfl, fun t0 t1 rest => rfl⟩
  show ([channel_duration tc.t, channel_duration ac.t,
      channel_duration gc.t].max?).getD 0 = _
  rw [max3_getD]

/-- Witness for C7 at the concrete single-sample package. -/
theorem claim_C7_amended_witness :
    (write_package extId {} touchSingle {} {} 3).1 =
      .ok (pkgIndex extId 3 {} touchSingle {} {} touchSingle {} {}) ∧
    (pkgIndex extId 3 {} touchSingle {} {} touchSingle {} {}).duration_seconds =
      max (max (channel_duration touchSingle.t) (channel_duration ([] : List Nat)))
        (channel_duration ([] : List Nat)) ∧
    channel_duration ([] : List Nat) = 0 ∧
    (∀ t0 : Nat, channel_duration [t0] = (t0 : Rat) / 1000000) ∧
    (∀ (t0 t1 : Nat) (rest : List Nat),
      channel_duration (t0 :: t1 :: rest) =
        (((t1 :: rest).getLast (by simp) : Rat) - (t0 : Rat)) / 1000000) :=
  claim_C7_amended extId {} touchSingle {} {} 3 (fun b => rfl)
    (by decide) rfl rfl (by refine ⟨?_, ?_, ?_, ?_⟩ <;> decide)
    (by refine ⟨?_, ?_, ?_⟩ <;> decide) (by refine ⟨?_, ?_, ?_⟩ <;> decide)

/-- C8: `load_simulation` applies no monotonic-timestamp repair — it returns
the stored timestamp column unchanged — whereas the repair the spec (and the
repository's own test) prescribes would turn accelerometer timestamps
[30, 10, 10] into [10, 11, 30], keeping each sample's other column values at
its sorted-then-bumped position (tracked here by pairing each timestamp with
its original sample position). -/
theorem claim_C8_loader_no_repair :
    load_simulation_timestamps [30, 10, 10] = [30, 10, 10] ∧
    repair_timestamps [(30, 0), (10, 1), (10, 2)] = [(10, 1), (11, 2), (30, 0)] ∧
    load_simulation_timestamps [30, 10, 10] ≠ [10, 11, 30] := by
  refine ⟨rfl, ?_, by decide⟩
  decide

/-- C9 counterexample: the growth-retry loop is applied in the
known-content-size case too — a frame reporting content size 8 whose
decompression only succeeds with a 16-byte buffer still decompresses
successfully, because the loop doubles and retries after the first error
instead of failing. -/
theorem claim_C9_counterexample :
    zstd_decompress (fun c => if 16 ≤ c then some [7] else none)
      (.sizeKnown 8) 100 50 = some (.ok [7]) ∧
    (fun c : Nat => if 16 ≤ c then some [7] else none) 8 = none := by
  constructor
  · decide
  · decide

/-- C9 amended: `decompress` runs the same doubling retry loop in both the
unknown- and known-content-size cases (starting at `max(4 * srcSize, 1024)`
resp. at the reported size); on success some doubling `cs * 2^i` of the
start size succeeded while all earlier attempts failed within the 1 GiB
ceiling, and the OutputTooLarge failure occurs exactly when every attempt
failed and the next doubling would exceed 1 GiB. -/
theorem claim_C9_amended :
    (∀ (z : Nat → Option (List Nat)) (s fuel : Nat),
      zstd_decompress z .sizeUnknown s fuel =
        zstd_decompress_loop z fuel (max (s * 4) 1024)) ∧
    (∀ (z : Nat → Option (List Nat)) (n s fuel : Nat),
      zstd_decompress z (.sizeKnown n) s fuel = zstd_decompress_loop z fuel n) ∧
    (∀ (z : Nat → Option (List Nat)) (fuel cs : Nat) (out : List Nat),
      zstd_decompress_loop z fuel cs = some (.ok out) →
      ∃ i, i < fuel ∧ z (cs * 2 ^ i) = some out ∧
        ∀ j < i, z (cs * 2 ^ j) = none ∧ cs * 2 ^ (j + 1) ≤ 1073741824) ∧
    (∀ (z : Nat → Option (List Nat)) (fuel cs : Nat),
      zstd_decompress_loop z fuel cs = some (.error .outputTooLarge) →
      ∃ i, i < fuel ∧ (∀ j ≤ i, z (cs * 2 ^ j) = none) ∧
        cs * 2 ^ (i + 1) > 1073741824 ∧
        ∀ j < i, cs * 2 ^ (j + 1) ≤ 1073741824) := by
  refine ⟨fun z s fuel => rfl, fun z n s fuel => rfl, ?_, ?_⟩
  · intro z fuel
    induction fuel with
    | zero => intro cs out h; simp [zstd_decompress_loop] at h
    | succ f ih =>
      intro cs out h
      rw [zstd_decompress_loop] at h
      cases hz : z cs with
      | some o =>
        rw [hz] at h
        simp only [Option.some.injEq, Except.ok.injEq] at h
        refine ⟨0, by omega, ?_, by omega⟩
        rw [pow_zero, Nat.mul_one, hz, h]
      | none =>
        rw [hz] at h
        by_cases hg : cs * 2 > 1073741824
        · rw [if_pos hg] at h
          simp at h
        · rw [if_neg hg] at h
          obtain ⟨i, hif, hzi, hprev⟩ := ih (cs * 2) out h
          refine ⟨i + 1, by omega, ?_, ?_⟩
          · rw [← hzi]
            congr 1
            ring
          · intro j hj
            cases j with
            | zero =>
              refine ⟨by rw [pow_zero, Nat.mul_one]; exact hz, ?_⟩
              rw [pow_one]
              omega
            | succ j2 =>
              obtain ⟨hz2, hb2⟩ := hprev j2 (by omega)
              constructor
              · rw [← hz2]
                congr 1
                ring
              · have h2 : cs * 2 ^ (j2 + 1 + 1) = cs * 2 * 2 ^ (j2 + 1) := by ring
                rw [h2]
                exact hb2
  · intro z fuel
    induction fuel with
    | zero => intro cs h; simp [zstd_decompress_loop] at h
    | succ f ih =>
      intro cs h
      rw [zstd_decompress_loop] at h
      cases hz : z cs with
      | some o =>
        rw [hz] at h
        simp at h
      | none =>
        rw [hz] at h
        by_cases hg : cs * 2 > 1073741824
        · rw [if_pos hg] at h
          refine ⟨0, by omega, ?_, by rwa [pow_one], by omega⟩
          intro j hj
          have hj0 : j = 0 := by omega
          rw [hj0, pow_zero, Nat.mul_one]
          exact hz
        · rw [if_neg hg] at h
          obtain ⟨i, hif, hall, hbig, hprev⟩ := ih (cs * 2) h
          refine ⟨i + 1, by omega, ?_, ?_, ?_⟩
          · intro j hj
            cases j with
            | zero => rw [pow_zero, Nat.mul_one]; exact hz
            | succ j2 =>
              have := hall j2 (by omega)
              rw [← this]
              congr 1
              ring
          · have h2 : cs * 2 ^ (i + 1 + 1) = cs * 2 * 2 ^ (i + 1) := by ring
            rw [h2]
            exact hbig
          · intro j hj
            cases j with
            | zero =>
              rw [pow_one]
              omega
            | succ j2 =>
              have := hprev j2 (by omega)
              have h2 : cs * 2 ^ (j2 + 1 + 1) = cs * 2 * 2 ^ (j2 + 1) := by ring
              rw [h2]
              exact this

/-- Witness for C9: the retry-loop success characterization applied at a
concrete oracle that succeeds immediately. -/
theorem claim_C9_amended_witness :
    ∃ i, i < 1 ∧ (fun _ : Nat => some ([3] : List Nat)) (7 * 2 ^ i) = some [3] ∧
      ∀ j < i, (fun _ : Nat => some ([3] : List Nat)) (7 * 2 ^ j) = none ∧
        7 * 2 ^ (j + 1) ≤ 1073741824 :=
  claim_C9_amended.2.2.1 (fun _ => some [3]) 1 7 [3] (by decide)

/-- The Python integer varint loop agrees with the Nat encoder on
non-negative inputs, terminating within `value + 1` iterations. -/
theorem encodeVarintIntFuel_nat (n : Nat) : ∀ fuel : Nat, n < fuel →
    encodeVarintIntFuel fuel (n : Int) = some (encodeVarint n) := by
  induction n using Nat.strong_induction_on with
  | _ n ih =>
    intro fuel hfuel
    match fuel with
    | f + 1 =>
      have hmod : (((n : Int)).emod 128).toNat = n &&& 127 := by
        have h1 : ((n : Int)).emod 128 = ((n % 128 : Nat) : Int) := by
          rw [Int.ofNat_emod]
          rfl
        rw [h1, Int.toNat_natCast]
        have h127 : (127 : Nat) = 2 ^ 7 - 1 := by norm_num
        rw [h127, Nat.and_pow_two_sub_one_eq_mod]
      have hdiv : ((n : Int)).fdiv 128 = ((n / 128 : Nat) : Int) :=
        (Int.ofNat_fdiv n 128).symm
      have hshift : n >>> 7 = n / 128 := by
        simpa using Nat.shiftRight_eq_div_pow n 7
      rw [encodeVarintIntFuel, encodeVarint]
      by_cases h : n / 128 = 0
      · have hz : ((n : Int)).fdiv 128 = 0 := by
          rw [hdiv, h]
          rfl
        rw [if_pos hz, if_pos (by rw [hshift]; exact h), hmod]
      · have hz : ¬ ((n : Int)).fdiv 128 = 0 := by
          rw [hdiv]
          exact fun hc => h (by exact_mod_cast hc)
        have hlt : n / 128 < n := by
          have : n ≠ 0 := fun h0 => h (by simp [h0])
          omega
        have hrec := ih (n / 128) hlt f (by omega)
        rw [if_neg hz, if_neg (by rw [hshift]; exact h), hdiv, hrec]
        simp [hmod, hshift]

/-- The Python integer varint loop never terminates on a negative input:
the arithmetic shift keeps the value strictly negative forever. -/
theorem encodeVarintIntFuel_neg : ∀ (fuel : Nat) (v : Int), v < 0 →
    encodeVarintIntFuel fuel v = none := by
  intro fuel
  induction fuel with
  | zero => intro v _; rfl
  | succ f ih =>
    intro v hv
    have hneg : v.fdiv 128 < 0 := by
      by_contra hge
      push_neg at hge
      have h1 := Int.fdiv_add_fmod v 128
      have h2 : (0 : Int) ≤ v.fmod 128 := Int.fmod_nonneg' v (by norm_num)
      have h3 : (0 : Int) ≤ 128 * v.fdiv 128 := by positivity
      omega
    rw [encodeVarintIntFuel, if_neg (by omega), ih (v.fdiv 128) hneg]
    rfl

/-- C10: varint round-trip — decoding the encoding of any non-negative
integer from position 0 yields the value back with the new position equal to
the encoded length; the Python encoder loop terminates (with the same
output) for every non-negative input, and diverges for every negative
input, so non-negativity is a genuine precondition. -/
theorem claim_C10_varint_roundtrip :
    (∀ n : Nat, decodeVarintAt (encodeVarint n) 0 =
      .ok (n, (encodeVarint n).length)) ∧
    (∀ n fuel : Nat, n < fuel →
      encodeVarintIntFuel fuel (n : Int) = some (encodeVarint n)) ∧
    (∀ v : Int, v < 0 → ∀ fuel : Nat, encodeVarintIntFuel fuel v = none) := by
  refine ⟨?_, encodeVarintIntFuel_nat, fun v hv fuel => encodeVarintIntFuel_neg fuel v hv⟩
  intro n
  have hcore := decodeVarintCore_encode n 0 0 []
  rw [List.append_nil] at hcore
  rw [decodeVarintAt, List.drop_zero, hcore]
  simp

/-- Witness for C10 at the two-byte value 300 and the negative input -1. -/
theorem claim_C10_varint_roundtrip_witness :
    decodeVarintAt (encodeVarint 300) 0 = .ok (300, (encodeVarint 300).length) ∧
    encodeVarintIntFuel 301 ((300 : Nat) : Int) = some (encodeVarint 300) ∧
    encodeVarintIntFuel 5 (-1) = none :=
  ⟨claim_C10_varint_roundtrip.1 300,
   claim_C10_varint_roundtrip.2.1 300 301 (by norm_num),
   claim_C10_varint_roundtrip.2.2 (-1) (by norm_num) 5⟩
